import Mathlib

/-!
InjectPrefetch: the `inject_prefetch` graph rewrite of tf.data

A shallow embedding of
`tensorflow/core/grappler/optimizers/data/inject_prefetch.cc`.

`InjectPrefetch::OptimizeAndCollectStats` is translated statement by statement.
The graph substrate it calls (`MutableGraphView`, `graph_utils`) is not part of
the translated file; each of those helpers is a definition marked
`Modelled from the spec:` that follows section 6 of the specification.  Two
things the specification leaves open are parameters (`Env`): the value of the
autotune sentinel and the predicate deciding whether an item stems from a
function definition.

A null pointer dereference (`*sink_node`, `last_node->op()`) has no defined
behaviour; the embedding returns `none` there.
-/

namespace tensorflow
namespace grappler

/-! ## Data model -/

/-- Element types of tensors (the enumerators the pass can meet). -/
inductive DataType where
  | DT_INVALID
  | DT_FLOAT
  | DT_INT32
  | DT_INT64
  | DT_STRING
  | DT_VARIANT
  deriving DecidableEq, Repr

/-- Typed attribute values: `AttrValue` of the node definition. -/
inductive AttrValue where
  | dtype (t : DataType)
  | tensor (t : DataType) (int64_val : Int)
  | list_type (ts : List DataType)
  | list_shape (shapes : List (List Int))
  | s (v : String)
  | i (v : Int)
  deriving DecidableEq, Repr

/-- A node: unique string name, op-type tag, ordered input references (each the
name of the node it consumes) and the attribute map. -/
structure NodeDef where
  name : String := ""
  op : String := ""
  input : List String := []
  attr : List (String × AttrValue) := []
  deriving DecidableEq, Repr

/-- A graph: the repeated `node` field. -/
structure GraphDef where
  node : List NodeDef := []
  deriving DecidableEq, Repr

/-- The pipeline descriptor: one graph and the fetch names. -/
structure GrapplerItem where
  graph : GraphDef := {}
  fetch : List String := []
  deriving DecidableEq, Repr

/-- Statistics of one optimization run.  The counter is kept as an unbounded
integer: the pass adds one at most once per call. -/
structure OptimizationStats where
  num_changes : Int := 0
  deriving DecidableEq, Repr

/-- Status of a call.  `InvalidArgument` is the error built at lines 54-56;
`StructuralCorruption` stands for the error class that only fanout redirection
can produce (section 7 (c) of the specification). -/
inductive Status where
  | OK
  | InvalidArgument (message : String)
  | StructuralCorruption (message : String)
  deriving DecidableEq, Repr

/-- The pass object: its only state is the `autotune_` flag. -/
structure InjectPrefetch where
  autotune_ : Bool := true
  deriving DecidableEq, Repr

/-- What the specification leaves open: the value of `data::model::kAutotune`
and the predicate `graph_utils::IsItemDerivedFromFunctionDef`. -/
structure Env where
  kAutotune : Int
  IsItemDerivedFromFunctionDef : GrapplerItem → GraphDef → Bool

/-- What a call leaves behind: the returned status, `*output` and `*stats`. -/
structure Outcome where
  status : Status
  output : GraphDef
  stats : OptimizationStats
  deriving DecidableEq, Repr

/-! ## Constants -/

/-- Line 33: `constexpr char kPrefetchDataset[] = "PrefetchDataset"`. -/
def kPrefetchDataset : String := "PrefetchDataset"

/-- Modelled from the spec: the key of the `output_types` attribute
(section 3, Node). -/
def kOutputTypes : String := "output_types"

/-- Modelled from the spec: the key of the `output_shapes` attribute
(section 3, Node). -/
def kOutputShapes : String := "output_shapes"

/-- Modelled from the spec: the op-type tag of a constant-valued node
(`AddConstantScalar`, section 6). -/
def kConstOpName : String := "Const"

/-! ## The graph substrate -/

/-- Modelled from the spec: lookup in the attribute map of a node
(section 3: a mapping from attribute-key to typed attribute-value). -/
def FindAttr (attr : List (String × AttrValue)) (key : String) : Option AttrValue :=
  (attr.find? (fun kv => kv.1 = key)).map (fun kv => kv.2)

/-- Modelled from the spec: assignment `attr[key] = value` in the attribute map
of a node; an existing binding is overwritten, otherwise one is added. -/
def SetAttr (attr : List (String × AttrValue)) (key : String) (value : AttrValue) :
    List (String × AttrValue) :=
  if attr.any (fun kv => kv.1 = key) then
    attr.map (fun kv => if kv.1 = key then (key, value) else kv)
  else
    attr ++ [(key, value)]

/-- Modelled from the spec: `LookupNode(graph, name)`, section 6
(`MutableGraphView::GetNode`): resolve a node by name; `none` is the null
pointer returned when the name is absent. -/
def GetNode (graph : GraphDef) (name : String) : Option NodeDef :=
  graph.node.find? (fun n => n.name = name)

/-- Modelled from the spec: `ResolveSingleInput(node, graph)`, section 6
(`graph_utils::GetInputNode`): the node named by the first input of `node`;
`none` when `node` has no input or the input names no node. -/
def GetInputNode (node : NodeDef) (graph : GraphDef) : Option NodeDef :=
  match node.input with
  | [] => none
  | first :: _ => GetNode graph first

/-- Modelled from the spec: whether some node of the graph carries `name`
(the test behind `AllocateUniqueName`). -/
def ContainsGraphNodeWithName (name : String) (graph : GraphDef) : Bool :=
  graph.node.any (fun n => n.name = name)

/-- Modelled from the spec: the search loop of `AllocateUniqueName`.  While the
candidate is in use, the next candidate is the hint followed by `/_` and a
running number.  `fuel` bounds the number of candidates tried. -/
def SetUniqueGraphNodeNameLoop (hint : String) (graph : GraphDef) :
    Nat → Nat → String → String
  | 0, _, name => name
  | fuel + 1, id, name =>
    if ContainsGraphNodeWithName name graph then
      SetUniqueGraphNodeNameLoop hint graph fuel (id + 1) (hint ++ "/_" ++ toString id)
    else
      name

/-- Modelled from the spec: `AllocateUniqueName(graph, hint)`, section 6
(`graph_utils::SetUniqueGraphNodeName`): give `node` a name not currently used
in `graph`, derived from `hint`.  The running number starts at the node count;
one candidate more than the graph has nodes always suffices. -/
def SetUniqueGraphNodeName (hint : String) (graph : GraphDef) (node : NodeDef) : NodeDef :=
  { node with
    name := SetUniqueGraphNodeNameLoop hint graph (graph.node.length + 1)
      graph.node.length hint }

/-- Modelled from the spec: `AddNode(graph, node)`, section 6
(`MutableGraphView::AddNode`): insert a fully-formed node and return the
graph-owned instance together with the graph. -/
def AddNode (graph : GraphDef) (node : NodeDef) : NodeDef × GraphDef :=
  (node, { graph with node := graph.node ++ [node] })

/-- Modelled from the spec: `AddConstantScalar(graph, value)`, section 6
(`graph_utils::AddScalarConstNode`): insert and return a new constant-valued
node; its name comes from the uniqueness allocator. -/
def AddScalarConstNode (v : Int) (graph : GraphDef) : NodeDef × GraphDef :=
  let node : NodeDef := SetUniqueGraphNodeName kConstOpName graph { op := kConstOpName }
  let node : NodeDef :=
    { node with
      attr := SetAttr (SetAttr node.attr "dtype" (AttrValue.dtype DataType.DT_INT64))
        "value" (AttrValue.tensor DataType.DT_INT64 v) }
  AddNode graph node

/-- Modelled from the spec: `CopyShapeTypeAttributes(source, target)`,
section 6 (`graph_utils::CopyShapesAndTypesAttrs`): copy `output_types` and
`output_shapes`; returns the success flag and the target, which is left as it
was on failure (no partial copy). -/
def CopyShapesAndTypesAttrs (src : NodeDef) (to_node : NodeDef) : Bool × NodeDef :=
  match FindAttr src.attr kOutputTypes, FindAttr src.attr kOutputShapes with
  | some types, some shapes =>
    (true, { to_node with
      attr := SetAttr (SetAttr to_node.attr kOutputTypes types) kOutputShapes shapes })
  | _, _ => (false, to_node)

/-- Modelled from the spec: one consumer after `RedirectConsumers`: each input
of `n` that names `from_name` is made to name `to_name`; the other inputs, the
name, the op and the attributes stay. -/
def redirectInputs (from_name to_name : String) (n : NodeDef) : NodeDef :=
  { n with input := n.input.map (fun s => if s = from_name then to_name else s) }

/-- Modelled from the spec: `RedirectConsumers(graph, oldName, newName)`,
section 6 (`MutableGraphView::UpdateFanouts`): every input that names the old
node is made to name the new node, except in the new node itself (no
self-loop).  It fails only when one of the two nodes is not in the graph. -/
def UpdateFanouts (graph : GraphDef) (from_node_name to_node_name : String) :
    Except Status GraphDef :=
  match GetNode graph from_node_name, GetNode graph to_node_name with
  | some from_node, some to_node =>
    Except.ok
      { graph with
        node := graph.node.map (fun n =>
          if n.name = to_node.name then n
          else redirectInputs from_node.name to_node.name n) }
  | _, _ =>
    Except.error (Status.StructuralCorruption "node to update fanouts of is missing")

/-! ## The pass -/

/-- Lines 54-56: the text of the fetch-count diagnostic,
`StrCat("Expected only one fetch node but there were ", fetch.size(), ": ",
StrJoin(fetch, ", "))`. -/
def fetchCountMessage (fetch : List String) : String :=
  "Expected only one fetch node but there were " ++ toString fetch.length ++ ": " ++
    ", ".intercalate fetch

/-- Lines 68-92: the mutation, reached once all preconditions have passed.
`output` is the graph behind the `MutableGraphView`. -/
def injectAfter (env : Env) (last_node : NodeDef) (output : GraphDef)
    (stats : OptimizationStats) : Outcome :=
  -- lines 69-73
  let prefetch_node : NodeDef :=
    SetUniqueGraphNodeName ("inject/prefetch_" ++ last_node.name) output {}
  let prefetch_node : NodeDef := { prefetch_node with op := kPrefetchDataset }
  -- line 75
  let prefetch_node : NodeDef :=
    { prefetch_node with input := prefetch_node.input ++ [last_node.name] }
  -- lines 77-79
  let added_const := AddScalarConstNode env.kAutotune output
  let autotune_value : NodeDef := added_const.1
  let output : GraphDef := added_const.2
  let prefetch_node : NodeDef :=
    { prefetch_node with input := prefetch_node.input ++ [autotune_value.name] }
  -- lines 84-85
  let copied := CopyShapesAndTypesAttrs last_node prefetch_node
  if !copied.1 then
    { status := Status.OK, output := output, stats := stats }
  else
    -- line 87
    let added := AddNode output copied.2
    let added_node : NodeDef := added.1
    let output : GraphDef := added.2
    -- lines 88-89
    match UpdateFanouts output last_node.name added_node.name with
    | Except.error st => { status := st, output := output, stats := stats }
    | Except.ok output =>
      -- lines 91-92
      { status := Status.OK, output := output,
        stats := { stats with num_changes := stats.num_changes + 1 } }

/-- Lines 70-72: the name given to the prefetch node inserted after
`last_node`, allocated against the graph as it is before the constant node is
added. -/
def prefetchNodeName (last_node : NodeDef) (output : GraphDef) : String :=
  (SetUniqueGraphNodeName ("inject/prefetch_" ++ last_node.name) output {}).name

/-- Lines 37-93: `InjectPrefetch::OptimizeAndCollectStats`.  The result is
`none` where the code dereferences a null pointer (lines 60 and 62). -/
def OptimizeAndCollectStats (env : Env) (self : InjectPrefetch) (item : GrapplerItem)
    (stats : OptimizationStats) : Option Outcome :=
  -- line 41
  let output : GraphDef := item.graph
  -- lines 42-46
  if !self.autotune_ then
    some { status := Status.OK, output := output, stats := stats }
  -- lines 50-51
  else if env.IsItemDerivedFromFunctionDef item output then
    some { status := Status.OK, output := output, stats := stats }
  -- lines 53-57
  else if item.fetch.length ≠ 1 then
    some { status := Status.InvalidArgument (fetchCountMessage item.fetch),
           output := output, stats := stats }
  else
    -- line 59
    match GetNode output (item.fetch.getD 0 "") with
    | none => none
    | some sink_node =>
      -- line 60
      match GetInputNode sink_node output with
      | none => none
      | some last_node =>
        -- lines 62-66
        if last_node.op = kPrefetchDataset then
          some { status := Status.OK, output := output, stats := stats }
        else
          some (injectAfter env last_node output stats)

/-! ## The pass with the failure of fanout redirection left open -/

/-- Modelled from the spec: `RedirectConsumers(graph, oldName, newName)` with
its failure left open (section 6: fails only on structural graph corruption;
section 7 (c): such a failure is an outcome of the pass).  `corrupt` tells for
which calls the substrate reports corruption; a failing call leaves the graph
as it was, every other call is `UpdateFanouts`. -/
def UpdateFanoutsOrFail (corrupt : GraphDef → String → String → Bool) (graph : GraphDef)
    (from_node_name to_node_name : String) : Except Status GraphDef :=
  if corrupt graph from_node_name to_node_name then
    Except.error (Status.StructuralCorruption "structural graph corruption")
  else
    UpdateFanouts graph from_node_name to_node_name

/-- Lines 68-92 with the redirection of lines 88-89 allowed to fail as
`corrupt` says. -/
def injectAfterWith (corrupt : GraphDef → String → String → Bool) (env : Env)
    (last_node : NodeDef) (output : GraphDef) (stats : OptimizationStats) : Outcome :=
  -- lines 69-73
  let prefetch_node : NodeDef :=
    SetUniqueGraphNodeName ("inject/prefetch_" ++ last_node.name) output {}
  let prefetch_node : NodeDef := { prefetch_node with op := kPrefetchDataset }
  -- line 75
  let prefetch_node : NodeDef :=
    { prefetch_node with input := prefetch_node.input ++ [last_node.name] }
  -- lines 77-79
  let added_const := AddScalarConstNode env.kAutotune output
  let autotune_value : NodeDef := added_const.1
  let output : GraphDef := added_const.2
  let prefetch_node : NodeDef :=
    { prefetch_node with input := prefetch_node.input ++ [autotune_value.name] }
  -- lines 84-85
  let copied := CopyShapesAndTypesAttrs last_node prefetch_node
  if !copied.1 then
    { status := Status.OK, output := output, stats := stats }
  else
    -- line 87
    let added := AddNode output copied.2
    let added_node : NodeDef := added.1
    let output : GraphDef := added.2
    -- lines 88-89
    match UpdateFanoutsOrFail corrupt output last_node.name added_node.name with
    | Except.error st => { status := st, output := output, stats := stats }
    | Except.ok output =>
      -- lines 91-92
      { status := Status.OK, output := output,
        stats := { stats with num_changes := stats.num_changes + 1 } }

/-- Lines 37-93 with the redirection of lines 88-89 allowed to fail as
`corrupt` says; with a `corrupt` that is never true this is
`OptimizeAndCollectStats`. -/
def OptimizeAndCollectStatsWith (corrupt : GraphDef → String → String → Bool) (env : Env)
    (self : InjectPrefetch) (item : GrapplerItem) (stats : OptimizationStats) :
    Option Outcome :=
  -- line 41
  let output : GraphDef := item.graph
  -- lines 42-46
  if !self.autotune_ then
    some { status := Status.OK, output := output, stats := stats }
  -- lines 50-51
  else if env.IsItemDerivedFromFunctionDef item output then
    some { status := Status.OK, output := output, stats := stats }
  -- lines 53-57
  else if item.fetch.length ≠ 1 then
    some { status := Status.InvalidArgument (fetchCountMessage item.fetch),
           output := output, stats := stats }
  else
    -- line 59
    match GetNode output (item.fetch.getD 0 "") with
    | none => none
    | some sink_node =>
      -- line 60
      match GetInputNode sink_node output with
      | none => none
      | some last_node =>
        -- lines 62-66
        if last_node.op = kPrefetchDataset then
          some { status := Status.OK, output := output, stats := stats }
        else
          some (injectAfterWith corrupt env last_node output stats)

/-! ## Concrete inputs -/

/-- An environment for top-level graphs: sentinel `-1`, no item stems from a
function definition. -/
def envTop : Env :=
  { kAutotune := -1, IsItemDerivedFromFunctionDef := fun _ _ => false }

/-- An environment in which every item stems from a function definition. -/
def envFunc : Env :=
  { kAutotune := -1, IsItemDerivedFromFunctionDef := fun _ _ => true }

/-- The attributes of a dataset node producing one float vector. -/
def datasetAttrs : List (String × AttrValue) :=
  [("output_types", AttrValue.list_type [DataType.DT_FLOAT]),
   ("output_shapes", AttrValue.list_shape [[3]])]

/-- The pipeline `A -> B -> Sink`, `B` a map stage with shape and type
attributes. -/
def graphABSink : GraphDef :=
  { node := [
      { name := "A", op := "RangeDataset", attr := datasetAttrs },
      { name := "B", op := "MapDataset", input := ["A"], attr := datasetAttrs },
      { name := "Sink", op := "Identity", input := ["B"] } ] }

/-- The item fetching `Sink` of `graphABSink`. -/
def itemABSink : GrapplerItem := { graph := graphABSink, fetch := ["Sink"] }

/-- An item with two fetch names over `graphABSink`. -/
def itemTwoFetches : GrapplerItem := { graph := graphABSink, fetch := ["X", "Y"] }

/-- An item without fetch names over `graphABSink`. -/
def itemNoFetch : GrapplerItem := { graph := graphABSink, fetch := [] }

/-- The pipeline `A -> B -> Sink` in which `B` already is a prefetch stage. -/
def graphPrefetched : GraphDef :=
  { node := [
      { name := "A", op := "RangeDataset", attr := datasetAttrs },
      { name := "B", op := "PrefetchDataset", input := ["A", "n"], attr := datasetAttrs },
      { name := "Sink", op := "Identity", input := ["B"] } ] }

/-- The item fetching `Sink` of `graphPrefetched`. -/
def itemPrefetched : GrapplerItem := { graph := graphPrefetched, fetch := ["Sink"] }

/-- The pipeline `A -> B -> Sink` in which `B` carries neither `output_types`
nor `output_shapes`. -/
def graphNoAttrs : GraphDef :=
  { node := [
      { name := "A", op := "RangeDataset" },
      { name := "B", op := "MapDataset", input := ["A"] },
      { name := "Sink", op := "Identity", input := ["B"] } ] }

/-- The item fetching `Sink` of `graphNoAttrs`. -/
def itemNoAttrs : GrapplerItem := { graph := graphNoAttrs, fetch := ["Sink"] }

/-- A scalar constant node of type int64 holding `v`. -/
def constNode (name : String) (v : Int) : NodeDef :=
  { name := name, op := "Const",
    attr := [("dtype", AttrValue.dtype DataType.DT_INT64),
             ("value", AttrValue.tensor DataType.DT_INT64 v)] }

/-- The outcome of the pass on `itemABSink`: `A -> B -> P -> Sink`, the constant
node and `P` appended, one change counted. -/
def outABSink : Outcome :=
  { status := Status.OK,
    output := { node := [
      { name := "A", op := "RangeDataset", attr := datasetAttrs },
      { name := "B", op := "MapDataset", input := ["A"], attr := datasetAttrs },
      { name := "Sink", op := "Identity", input := ["inject/prefetch_B"] },
      constNode "Const" (-1),
      { name := "inject/prefetch_B", op := "PrefetchDataset", input := ["B", "Const"],
        attr := datasetAttrs } ] },
    stats := { num_changes := 1 } }

/-- An item whose fetch name is carried by no node of `graphABSink`. -/
def itemAbsentFetch : GrapplerItem := { graph := graphABSink, fetch := ["Missing"] }

/-- A graph whose only node, the sink, has no input. -/
def graphSinkNoInput : GraphDef :=
  { node := [ { name := "Sink", op := "Identity" } ] }

/-- The item fetching `Sink` of `graphSinkNoInput`. -/
def itemSinkNoInput : GrapplerItem := { graph := graphSinkNoInput, fetch := ["Sink"] }

/-- The pipeline `A -> B -> Sink` with a further node that already carries the
name the pass would first pick for the prefetch node. -/
def graphNameTaken : GraphDef :=
  { node := graphABSink.node ++ [{ name := "inject/prefetch_B", op := "NoOp" }] }

/-- The item fetching `Sink` of `graphNameTaken`. -/
def itemNameTaken : GrapplerItem := { graph := graphNameTaken, fetch := ["Sink"] }

/-- A substrate that never reports corruption. -/
def neverCorrupt : GraphDef → String → String → Bool := fun _ _ _ => false

theorem digitChar_value : ∀ m : Nat, m < 10 → (Nat.digitChar m).toNat - 48 = m := by
  decide

theorem toDigitsCore_value (fuel : Nat) : ∀ (n : Nat) (ds : List Char), n < fuel →
    List.foldl (fun acc c => acc * 10 + (c.toNat - 48)) 0 (Nat.toDigitsCore 10 fuel n ds) =
      List.foldl (fun acc c => acc * 10 + (c.toNat - 48)) n ds := by
  induction fuel with
  | zero => intro n ds h; omega
  | succ fuel ih =>
    intro n ds h
    have hd := digitChar_value (n % 10) (Nat.mod_lt _ (by decide))
    have hdiv := Nat.div_add_mod n 10
    simp only [Nat.toDigitsCore]
    split
    · rename_i h0
      simp only [List.foldl_cons, hd]
      congr 1
      omega
    · rename_i h0
      rw [ih (n / 10) _ (by omega)]
      simp only [List.foldl_cons, hd]
      congr 1
      omega

theorem toString_nat_injective (a b : Nat) (h : toString a = toString b) : a = b := by
  have hd : Nat.toDigits 10 a = Nat.toDigits 10 b := by
    have := congrArg String.data h
    simpa [toString, Nat.repr] using this
  have ha := toDigitsCore_value (a + 1) a [] (by omega)
  have hb := toDigitsCore_value (b + 1) b [] (by omega)
  simp only [List.foldl_nil] at ha hb
  rw [← ha, ← hb]
  exact congrArg _ hd

theorem string_append_left_cancel (s x y : String) (h : s ++ x = s ++ y) : x = y := by
  have := congrArg String.data h
  simp only [String.data_append] at this
  exact String.ext (List.append_cancel_left this)

/-! ## The uniqueness allocator -/

theorem contains_iff (name : String) (graph : GraphDef) :
    ContainsGraphNodeWithName name graph = true ↔ name ∈ graph.node.map NodeDef.name := by
  simp only [ContainsGraphNodeWithName, List.any_eq_true, decide_eq_true_eq, List.mem_map]

/-- If the search ends on a name in use, every candidate it could try is in use. -/
theorem loop_used (hint : String) (graph : GraphDef) (fuel : Nat) :
    ∀ (id : Nat) (name : String),
      ContainsGraphNodeWithName (SetUniqueGraphNodeNameLoop hint graph fuel id name) graph = true →
      ∀ k, k < fuel → ContainsGraphNodeWithName (hint ++ "/_" ++ toString (id + k)) graph = true := by
  induction fuel with
  | zero => intro id name _ k hk; omega
  | succ fuel ih =>
    intro id name h k hk
    simp only [SetUniqueGraphNodeNameLoop] at h
    split at h
    · rcases k with _ | k
      · cases fuel with
        | zero => simpa [SetUniqueGraphNodeNameLoop] using h
        | succ fuel =>
          simp only [SetUniqueGraphNodeNameLoop] at h
          split at h
          · assumption
          · simpa using h
      · have := ih (id + 1) _ h k (by omega)
        have e : id + 1 + k = id + (k + 1) := by omega
        rwa [e] at this
    · rename_i hn
      exact absurd h hn

/-- The allocator returns a name that no node of the graph carries. -/
theorem SetUniqueGraphNodeName_fresh (hint : String) (graph : GraphDef) (node : NodeDef) :
    ∀ n ∈ graph.node, n.name ≠ (SetUniqueGraphNodeName hint graph node).name := by
  have key : ContainsGraphNodeWithName (SetUniqueGraphNodeName hint graph node).name graph
      = false := by
    by_contra hc
    have hc : ContainsGraphNodeWithName (SetUniqueGraphNodeName hint graph node).name graph
        = true := by simpa using hc
    have hall := loop_used hint graph _ _ _ hc
    let cands := (List.range (graph.node.length + 1)).map
      (fun k => hint ++ "/_" ++ toString (graph.node.length + k))
    have hnd : cands.Nodup := by
      apply List.Nodup.map _ (List.nodup_range _)
      intro a b hab
      have h1 := string_append_left_cancel _ _ _ hab
      have h2 := toString_nat_injective _ _ h1
      omega
    have hsub : cands ⊆ graph.node.map NodeDef.name := by
      intro x hx
      simp only [cands, List.mem_map, List.mem_range] at hx
      obtain ⟨k, hk, rfl⟩ := hx
      exact (contains_iff _ _).1 (hall k hk)
    have hlen := (List.subperm_of_subset hnd hsub).length_le
    simp [cands] at hlen
  intro n hn heq
  have : ContainsGraphNodeWithName (SetUniqueGraphNodeName hint graph node).name graph
      = true := by
    rw [contains_iff]
    exact List.mem_map.2 ⟨n, hn, heq⟩
  rw [key] at this
  exact Bool.noConfusion this

theorem loop_shape (hint : String) (graph : GraphDef) (fuel : Nat) :
    ∀ (id : Nat) (name : String),
      SetUniqueGraphNodeNameLoop hint graph fuel id name = name ∨
      ∃ k : Nat,
        SetUniqueGraphNodeNameLoop hint graph fuel id name = hint ++ "/_" ++ toString k := by
  induction fuel with
  | zero => intro id name; exact Or.inl rfl
  | succ fuel ih =>
    intro id name
    simp only [SetUniqueGraphNodeNameLoop]
    split
    · rcases ih (id + 1) (hint ++ "/_" ++ toString id) with h | ⟨k, h⟩
      · exact Or.inr ⟨id, h⟩
      · exact Or.inr ⟨k, h⟩
    · exact Or.inl rfl

/-- The allocated name is the hint, or the hint followed by `/_` and a number. -/
theorem SetUniqueGraphNodeName_shape (hint : String) (graph : GraphDef) (node : NodeDef) :
    (SetUniqueGraphNodeName hint graph node).name = hint ∨
    ∃ k : Nat, (SetUniqueGraphNodeName hint graph node).name = hint ++ "/_" ++ toString k :=
  loop_shape hint graph _ _ _

/-- The allocated name starts with the characters of the hint. -/
theorem SetUniqueGraphNodeName_data (hint : String) (graph : GraphDef) (node : NodeDef) :
    ∃ rest : List Char, (SetUniqueGraphNodeName hint graph node).name.data = hint.data ++ rest := by
  rcases SetUniqueGraphNodeName_shape hint graph node with h | ⟨k, h⟩
  · exact ⟨[], by simp [h]⟩
  · exact ⟨("/_" ++ toString k).data, by simp [h, String.append_assoc]⟩

/-- The name of the constant node differs from the name of the prefetch node. -/
theorem const_name_ne_prefetch_name (v : Int) (last_node : NodeDef) (g1 g2 : GraphDef) :
    (AddScalarConstNode v g1).1.name ≠ prefetchNodeName last_node g2 := by
  intro h
  obtain ⟨r1, h1⟩ := SetUniqueGraphNodeName_data kConstOpName g1 { op := kConstOpName }
  obtain ⟨r2, h2⟩ := SetUniqueGraphNodeName_data ("inject/prefetch_" ++ last_node.name) g2 {}
  have hc : (AddScalarConstNode v g1).1.name =
      (SetUniqueGraphNodeName kConstOpName g1 { op := kConstOpName }).name := rfl
  have := congrArg String.data h
  rw [hc, h1, prefetchNodeName, h2] at this
  simp [kConstOpName, String.data_append] at this

/-! ## Lookup and redirection -/

theorem GetNode_some (graph : GraphDef) (name : String) (x : NodeDef)
    (h : GetNode graph name = some x) : x ∈ graph.node ∧ x.name = name := by
  unfold GetNode at h
  refine ⟨List.mem_of_find?_eq_some h, ?_⟩
  simpa using List.find?_some h

theorem GetNode_of_mem (graph : GraphDef) (x : NodeDef) (h : x ∈ graph.node) :
    ∃ y, GetNode graph x.name = some y := by
  unfold GetNode
  cases hf : graph.node.find? (fun n => n.name = x.name) with
  | some y => exact ⟨y, rfl⟩
  | none =>
    have := List.find?_eq_none.1 hf x h
    simp at this

theorem GetNode_append_fresh (l1 l2 : List NodeDef) (name : String)
    (h : ∀ n ∈ l1, n.name ≠ name) :
    GetNode { node := l1 ++ l2 } name = GetNode { node := l2 } name := by
  unfold GetNode
  have hn : l1.find? (fun n => n.name = name) = none := by
    apply List.find?_eq_none.2
    intro n hn
    simpa using h n hn
  simp [List.find?_append, hn]

theorem GetNode_append_found (l1 l2 : List NodeDef) (name : String) (x : NodeDef)
    (h : GetNode { node := l1 } name = some x) :
    GetNode { node := l1 ++ l2 } name = some x := by
  unfold GetNode at *
  simp only at h
  simp [List.find?_append, h]

theorem GetNode_map_redirect (l : List NodeDef) (a b name : String) :
    GetNode { node := l.map (redirectInputs a b) } name =
      (GetNode { node := l } name).map (redirectInputs a b) := by
  unfold GetNode
  simp only [List.find?_map]
  rfl

theorem UpdateFanouts_ok (graph : GraphDef) (a b : String)
    (ha : ∃ n ∈ graph.node, n.name = a) (hb : ∃ n ∈ graph.node, n.name = b) :
    UpdateFanouts graph a b =
      Except.ok
        { node := graph.node.map (fun n => if n.name = b then n else redirectInputs a b n) } := by
  obtain ⟨x, hx, rfl⟩ := ha
  obtain ⟨y, hy, rfl⟩ := hb
  obtain ⟨x', hx'⟩ := GetNode_of_mem graph x hx
  obtain ⟨y', hy'⟩ := GetNode_of_mem graph y hy
  have h1 := (GetNode_some _ _ _ hx').2
  have h2 := (GetNode_some _ _ _ hy').2
  simp only [UpdateFanouts, hx', hy', h1, h2]

/-! ## The mutation -/

/-- The mutation when the attribute copy fails: the constant node stays in the
graph, nothing else happens. -/
theorem injectAfter_copy_fails (env : Env) (last_node : NodeDef) (output : GraphDef)
    (stats : OptimizationStats)
    (hcopy : FindAttr last_node.attr kOutputTypes = none ∨
      FindAttr last_node.attr kOutputShapes = none) :
    injectAfter env last_node output stats =
      { status := Status.OK,
        output := { node := output.node ++ [(AddScalarConstNode env.kAutotune output).1] },
        stats := stats } := by
  have hc : ∀ to_node, (CopyShapesAndTypesAttrs last_node to_node).1 = false := by
    intro to_node
    unfold CopyShapesAndTypesAttrs
    rcases hcopy with h | h
    · simp [h]
    · rw [h]
      cases FindAttr last_node.attr kOutputTypes <;> rfl
  simp only [injectAfter, hc]
  rfl

/-- The mutation when the attribute copy succeeds. -/
theorem injectAfter_success (env : Env) (last_node : NodeDef) (output : GraphDef)
    (stats : OptimizationStats) (types shapes : AttrValue)
    (hmem : last_node ∈ output.node)
    (htypes : FindAttr last_node.attr kOutputTypes = some types)
    (hshapes : FindAttr last_node.attr kOutputShapes = some shapes) :
    injectAfter env last_node output stats =
      { status := Status.OK,
        output := { node :=
          output.node.map (redirectInputs last_node.name (prefetchNodeName last_node output)) ++
            [(AddScalarConstNode env.kAutotune output).1,
             { name := prefetchNodeName last_node output,
               op := kPrefetchDataset,
               input := [last_node.name, (AddScalarConstNode env.kAutotune output).1.name],
               attr := [(kOutputTypes, types), (kOutputShapes, shapes)] }] },
        stats := { num_changes := stats.num_changes + 1 } } := by
  have hfresh : ∀ n ∈ output.node, n.name ≠ prefetchNodeName last_node output :=
    SetUniqueGraphNodeName_fresh _ output {}
  have hcn := const_name_ne_prefetch_name env.kAutotune last_node output output
  have hcin : (AddScalarConstNode env.kAutotune output).1.input = [] := rfl
  have hattr : SetAttr (SetAttr [] kOutputTypes types) kOutputShapes shapes =
      [(kOutputTypes, types), (kOutputShapes, shapes)] := by
    simp [SetAttr, kOutputTypes, kOutputShapes]
  have hcopy : ∀ to_node, CopyShapesAndTypesAttrs last_node to_node =
      (true, { to_node with
        attr := SetAttr (SetAttr to_node.attr kOutputTypes types) kOutputShapes shapes }) := by
    intro to_node
    simp [CopyShapesAndTypesAttrs, htypes, hshapes]
  have hredC : redirectInputs last_node.name (prefetchNodeName last_node output)
      (AddScalarConstNode env.kAutotune output).1 = (AddScalarConstNode env.kAutotune output).1 :=
    rfl
  have hfan := UpdateFanouts_ok
    { node := output.node ++ [(AddScalarConstNode env.kAutotune output).1] ++
        [{ name := prefetchNodeName last_node output,
           op := kPrefetchDataset,
           input := [last_node.name, (AddScalarConstNode env.kAutotune output).1.name],
           attr := [(kOutputTypes, types), (kOutputShapes, shapes)] }] }
    last_node.name (prefetchNodeName last_node output)
    ⟨last_node, by simp [hmem], rfl⟩
    ⟨{ name := prefetchNodeName last_node output,
       op := kPrefetchDataset,
       input := [last_node.name, (AddScalarConstNode env.kAutotune output).1.name],
       attr := [(kOutputTypes, types), (kOutputShapes, shapes)] }, by simp, rfl⟩
  have hmap : List.map
      (fun n => if n.name = prefetchNodeName last_node output then n
        else redirectInputs last_node.name (prefetchNodeName last_node output) n)
      output.node =
      output.node.map (redirectInputs last_node.name (prefetchNodeName last_node output)) :=
    List.map_congr_left (fun n hn => if_neg (hfresh n hn))
  simp only [List.map_append, List.map_cons, List.map_nil, hmap, if_neg hcn, if_true, hredC,
    List.append_assoc, List.cons_append, List.nil_append] at hfan
  have hrun : injectAfter env last_node output stats =
      (match UpdateFanouts
          { node := output.node ++
              [(AddScalarConstNode env.kAutotune output).1,
               { name := prefetchNodeName last_node output,
                 op := kPrefetchDataset,
                 input := [last_node.name, (AddScalarConstNode env.kAutotune output).1.name],
                 attr := [(kOutputTypes, types), (kOutputShapes, shapes)] }] }
          last_node.name (prefetchNodeName last_node output) with
        | Except.error st =>
          { status := st,
            output := { node := output.node ++
              [(AddScalarConstNode env.kAutotune output).1,
               { name := prefetchNodeName last_node output,
                 op := kPrefetchDataset,
                 input := [last_node.name, (AddScalarConstNode env.kAutotune output).1.name],
                 attr := [(kOutputTypes, types), (kOutputShapes, shapes)] }] },
            stats := stats }
        | Except.ok o =>
          { status := Status.OK, output := o,
            stats := { num_changes := stats.num_changes + 1 } }) := by
    simp only [injectAfter, SetUniqueGraphNodeName, hcopy, AddNode, Bool.not_true,
      Bool.false_eq_true, if_false, hattr, List.nil_append]
    simp only [prefetchNodeName, SetUniqueGraphNodeName, AddScalarConstNode, AddNode,
      List.append_assoc, List.cons_append, List.nil_append]
  rw [hrun, hfan]

theorem GetInputNode_some (node : NodeDef) (graph : GraphDef) (x : NodeDef)
    (h : GetInputNode node graph = some x) :
    ∃ rest, node.input = x.name :: rest ∧ GetNode graph x.name = some x := by
  unfold GetInputNode at h
  split at h
  · exact Option.noConfusion h
  · rename_i first rest hin
    have hn := (GetNode_some _ _ _ h).2
    subst hn
    exact ⟨rest, hin, h⟩

theorem copy_succeeds_iff (src to_node : NodeDef) :
    (CopyShapesAndTypesAttrs src to_node).1 = true ↔
      ∃ types shapes, FindAttr src.attr kOutputTypes = some types ∧
        FindAttr src.attr kOutputShapes = some shapes := by
  unfold CopyShapesAndTypesAttrs
  cases h1 : FindAttr src.attr kOutputTypes <;> cases h2 : FindAttr src.attr kOutputShapes <;>
    simp

/-- The outcome of the mutation path in terms of the input graph. -/
theorem run_reaches_injectAfter (env : Env) (self : InjectPrefetch) (item : GrapplerItem)
    (stats : OptimizationStats) (f : String) (sink_node last_node : NodeDef)
    (hon : self.autotune_ = true)
    (hfun : env.IsItemDerivedFromFunctionDef item item.graph = false)
    (hfetch : item.fetch = [f])
    (hsink : GetNode item.graph f = some sink_node)
    (hlast : GetInputNode sink_node item.graph = some last_node)
    (hop : last_node.op ≠ kPrefetchDataset) :
    OptimizeAndCollectStats env self item stats =
      some (injectAfter env last_node item.graph stats) := by
  simp [OptimizeAndCollectStats, hon, hfun, hfetch, hsink, hlast, hop]

/-- Every way the call can return: untouched graph and statistics, or the
mutation path. -/
theorem run_cases (env : Env) (self : InjectPrefetch) (item : GrapplerItem)
    (stats : OptimizationStats) (out : Outcome)
    (hrun : OptimizeAndCollectStats env self item stats = some out) :
    (out.output = item.graph ∧ out.stats = stats ∧
      (out.status = Status.OK ∨ out.status = Status.InvalidArgument (fetchCountMessage item.fetch))) ∨
    ∃ f sink_node last_node,
      self.autotune_ = true ∧ env.IsItemDerivedFromFunctionDef item item.graph = false ∧
      item.fetch = [f] ∧ GetNode item.graph f = some sink_node ∧
      GetInputNode sink_node item.graph = some last_node ∧
      last_node.op ≠ kPrefetchDataset ∧
      out = injectAfter env last_node item.graph stats := by
  unfold OptimizeAndCollectStats at hrun
  simp only at hrun
  split at hrun
  · left; cases hrun; exact ⟨rfl, rfl, Or.inl rfl⟩
  · rename_i hon
    split at hrun
    · left; cases hrun; exact ⟨rfl, rfl, Or.inl rfl⟩
    · rename_i hfun
      split at hrun
      · left; cases hrun; exact ⟨rfl, rfl, Or.inr rfl⟩
      · rename_i hlen
        have hfetch : ∃ f, item.fetch = [f] := by
          have : item.fetch.length = 1 := by simpa using hlen
          exact List.length_eq_one.1 this
        obtain ⟨f, hf⟩ := hfetch
        simp only [hf, List.getD_cons_zero] at hrun
        split at hrun
        · exact Option.noConfusion hrun
        · rename_i sink_node hsink
          split at hrun
          · exact Option.noConfusion hrun
          · rename_i last_node hlast
            split at hrun
            · left; cases hrun; exact ⟨rfl, rfl, Or.inl rfl⟩
            · rename_i hop
              right
              refine ⟨f, sink_node, last_node, by simpa using hon, by simpa using hfun, hf,
                hsink, hlast, hop, ?_⟩
              cases hrun; rfl

/-- The call took the mutation path to its end exactly when the counter went up:
the preconditions held, the copy succeeded, and the outcome is the one of
`injectAfter_success`. -/
theorem injection_performed (env : Env) (self : InjectPrefetch) (item : GrapplerItem)
    (stats : OptimizationStats) (out : Outcome)
    (hrun : OptimizeAndCollectStats env self item stats = some out)
    (hinc : out.stats.num_changes = stats.num_changes + 1) :
    ∃ f sink_node last_node types shapes,
      item.fetch = [f] ∧ GetNode item.graph f = some sink_node ∧
      GetInputNode sink_node item.graph = some last_node ∧
      FindAttr last_node.attr kOutputTypes = some types ∧
      FindAttr last_node.attr kOutputShapes = some shapes ∧
      out = { status := Status.OK,
              output := { node :=
                item.graph.node.map (redirectInputs last_node.name
                    (prefetchNodeName last_node item.graph)) ++
                  [(AddScalarConstNode env.kAutotune item.graph).1,
                   { name := prefetchNodeName last_node item.graph,
                     op := kPrefetchDataset,
                     input := [last_node.name,
                       (AddScalarConstNode env.kAutotune item.graph).1.name],
                     attr := [(kOutputTypes, types), (kOutputShapes, shapes)] }] },
              stats := { num_changes := stats.num_changes + 1 } } := by
  rcases run_cases env self item stats out hrun with ⟨_, hst, _⟩ | h
  · rw [hst] at hinc
    omega
  · obtain ⟨f, sink_node, last_node, _, _, hfetch, hsink, hlast, _, hout⟩ := h
    have hmem : last_node ∈ item.graph.node := by
      obtain ⟨_, _, hg⟩ := GetInputNode_some _ _ _ hlast
      exact (GetNode_some _ _ _ hg).1
    cases ht : FindAttr last_node.attr kOutputTypes with
    | none =>
      rw [hout, injectAfter_copy_fails env last_node item.graph stats (Or.inl ht)] at hinc
      simp only at hinc
      omega
    | some types =>
      cases hs : FindAttr last_node.attr kOutputShapes with
      | none =>
        rw [hout, injectAfter_copy_fails env last_node item.graph stats (Or.inr hs)] at hinc
        simp only at hinc
        omega
      | some shapes =>
        refine ⟨f, sink_node, last_node, types, shapes, hfetch, hsink, hlast, ht, hs, ?_⟩
        rw [hout]
        exact injectAfter_success env last_node item.graph stats types shapes hmem ht hs

/-- The mutation path never returns the input graph: at least the constant
node has been added. -/
theorem injectAfter_output_ne (env : Env) (last_node : NodeDef) (output : GraphDef)
    (stats : OptimizationStats) (hmem : last_node ∈ output.node) :
    (injectAfter env last_node output stats).output ≠ output := by
  intro hsame
  have hlen := congrArg (fun g => g.node.length) hsame
  cases ht : FindAttr last_node.attr kOutputTypes with
  | none =>
    rw [injectAfter_copy_fails env last_node output stats (Or.inl ht)] at hlen
    simp at hlen
  | some types =>
    cases hs : FindAttr last_node.attr kOutputShapes with
    | none =>
      rw [injectAfter_copy_fails env last_node output stats (Or.inr hs)] at hlen
      simp at hlen
    | some shapes =>
      rw [injectAfter_success env last_node output stats types shapes hmem ht hs] at hlen
      simp at hlen

/-- An early exit does not look at the statistics: it returns the same status
and the input graph whatever the counter holds. -/
theorem early_exit_any_stats (env : Env) (self : InjectPrefetch) (item : GrapplerItem)
    (stats stats2 : OptimizationStats) (out : Outcome)
    (hrun : OptimizeAndCollectStats env self item stats = some out)
    (hsame : out.output = item.graph) :
    OptimizeAndCollectStats env self item stats2 =
      some { status := out.status, output := item.graph, stats := stats2 } := by
  by_cases h1 : self.autotune_ = true
  swap
  · simp [OptimizeAndCollectStats, h1] at hrun ⊢
    rw [← hrun]
  by_cases h2 : env.IsItemDerivedFromFunctionDef item item.graph = true
  · simp [OptimizeAndCollectStats, h1, h2] at hrun ⊢
    rw [← hrun]
  by_cases h3 : item.fetch.length = 1
  swap
  · simp [OptimizeAndCollectStats, h1, h2, h3] at hrun ⊢
    rw [← hrun]
  obtain ⟨f, hf⟩ := List.length_eq_one.1 h3
  cases hs : GetNode item.graph f with
  | none => simp [OptimizeAndCollectStats, h1, h2, hf, hs] at hrun
  | some sink_node =>
    cases hl : GetInputNode sink_node item.graph with
    | none => simp [OptimizeAndCollectStats, h1, h2, hf, hs, hl] at hrun
    | some last_node =>
      by_cases h4 : last_node.op = kPrefetchDataset
      · simp [OptimizeAndCollectStats, h1, h2, hf, hs, hl, h4] at hrun ⊢
        rw [← hrun]
      · exfalso
        simp [OptimizeAndCollectStats, h1, h2, hf, hs, hl, h4] at hrun
        have hmem : last_node ∈ item.graph.node := by
          obtain ⟨_, _, hg⟩ := GetInputNode_some _ _ _ hl
          exact (GetNode_some _ _ _ hg).1
        rw [← hrun] at hsame
        exact injectAfter_output_ne env last_node item.graph stats hmem hsame

/-- Idempotence away from the aborted rewrite: when the first application
returns OK and either left the graph as it was or counted a change, a second
application on its output (same fetch list, same flag) returns OK with that
graph and leaves the counter alone. -/
theorem second_application_is_identity (env : Env) (self : InjectPrefetch)
    (item : GrapplerItem) (stats stats2 : OptimizationStats) (out : Outcome)
    (hon : self.autotune_ = true)
    (hrun : OptimizeAndCollectStats env self item stats = some out)
    (hok : out.status = Status.OK)
    (hcase : out.output = item.graph ∨ out.stats.num_changes = stats.num_changes + 1) :
    OptimizeAndCollectStats env self { graph := out.output, fetch := item.fetch } stats2 =
      some { status := Status.OK, output := out.output, stats := stats2 } := by
  rcases hcase with hsame | hinc
  · have h := early_exit_any_stats env self item stats stats2 out hrun hsame
    rw [hsame, ← hok]
    exact h
  · obtain ⟨f, sink_node, last_node, types, shapes, hfetch, hsink, hlast, _, _, hout⟩ :=
      injection_performed env self item stats out hrun hinc
    have hfresh : ∀ n ∈ item.graph.node, n.name ≠ prefetchNodeName last_node item.graph :=
      SetUniqueGraphNodeName_fresh _ item.graph {}
    have hcn := const_name_ne_prefetch_name env.kAutotune last_node item.graph item.graph
    obtain ⟨rest, hin, hg⟩ := GetInputNode_some _ _ _ hlast
    have hsink2 : GetNode out.output f =
        some (redirectInputs last_node.name (prefetchNodeName last_node item.graph)
          sink_node) := by
      rw [hout]
      simp only
      apply GetNode_append_found
      rw [GetNode_map_redirect]
      have : GetNode { node := item.graph.node } f = some sink_node := hsink
      rw [this]
      rfl
    have hlast2 : GetInputNode
        (redirectInputs last_node.name (prefetchNodeName last_node item.graph) sink_node)
        out.output =
        some { name := prefetchNodeName last_node item.graph,
               op := kPrefetchDataset,
               input := [last_node.name, (AddScalarConstNode env.kAutotune item.graph).1.name],
               attr := [(kOutputTypes, types), (kOutputShapes, shapes)] } := by
      rw [hout]
      simp only [GetInputNode, redirectInputs, hin, List.map_cons, if_true]
      rw [GetNode_append_fresh]
      · simp [GetNode, hcn]
      · intro n hn
        obtain ⟨m, hm, rfl⟩ := List.mem_map.1 hn
        exact hfresh m hm
    unfold OptimizeAndCollectStats
    simp only [hon, hfetch, hsink2, hlast2, Bool.not_true, Bool.false_eq_true, if_false,
      List.length_singleton, ne_eq, not_true_eq_false, List.getD_cons_zero, if_true]
    split <;> rfl

/-! ## The early exits -/

/-- Claim C1 (autotune gating): with the autotune flag off, for every item
(any graph, any fetch list) and every initial statistics value, the call
returns OK, the output graph is `item.graph` and the statistics are unchanged. -/
theorem autotune_off_is_identity (env : Env) (self : InjectPrefetch) (item : GrapplerItem)
    (stats : OptimizationStats) (hoff : self.autotune_ = false) :
    OptimizeAndCollectStats env self item stats =
      some { status := Status.OK, output := item.graph, stats := stats } := by
  simp [OptimizeAndCollectStats, hoff]

/-- Claim C1 at an item with two fetch names and a counter standing at 7. -/
theorem autotune_off_is_identity_witness :
    ({ autotune_ := false } : InjectPrefetch).autotune_ = false ∧
    OptimizeAndCollectStats envTop { autotune_ := false } itemTwoFetches { num_changes := 7 } =
      some { status := Status.OK, output := itemTwoFetches.graph,
             stats := { num_changes := 7 } } :=
  ⟨rfl, autotune_off_is_identity envTop { autotune_ := false } itemTwoFetches
    { num_changes := 7 } rfl⟩

/-! ## The injection -/

/-- Claim C2 (successful injection shape): with autotune on, an item not
derived from a function definition, exactly one fetch name resolving to a sink
whose first input resolves to a last node `L` with op other than
`PrefetchDataset`, and a successful copy of `output_types`/`output_shapes` from
`L`, the call returns OK; the output graph is the input graph (consumers of `L`
redirected) followed by exactly two new nodes: a constant scalar node `C`
holding the autotune sentinel and a node `P` with op `PrefetchDataset` and input
list `[name(L), name(C)]`; `num_changes` is one greater than before.  Fanout
redirection cannot fail here, so it is no hypothesis. -/
theorem injection_shape (env : Env) (self : InjectPrefetch) (item : GrapplerItem)
    (stats : OptimizationStats) (f : String) (sink_node last_node to_node : NodeDef)
    (hon : self.autotune_ = true)
    (hfun : env.IsItemDerivedFromFunctionDef item item.graph = false)
    (hfetch : item.fetch = [f])
    (hsink : GetNode item.graph f = some sink_node)
    (hlast : GetInputNode sink_node item.graph = some last_node)
    (hop : last_node.op ≠ "PrefetchDataset")
    (hcopy : (CopyShapesAndTypesAttrs last_node to_node).1 = true) :
    ∃ C P : NodeDef,
      OptimizeAndCollectStats env self item stats =
        some { status := Status.OK,
               output := { node :=
                 item.graph.node.map (redirectInputs last_node.name P.name) ++ [C, P] },
               stats := { num_changes := stats.num_changes + 1 } } ∧
      (item.graph.node.map (redirectInputs last_node.name P.name) ++ [C, P]).length =
        item.graph.node.length + 2 ∧
      (∀ n ∈ item.graph.node, n.name ≠ C.name ∧ n.name ≠ P.name) ∧
      C.name ≠ P.name ∧
      C.op = "Const" ∧ C.input = [] ∧
      FindAttr C.attr "value" = some (AttrValue.tensor DataType.DT_INT64 env.kAutotune) ∧
      P.op = "PrefetchDataset" ∧ P.input = [last_node.name, C.name] := by
  obtain ⟨types, shapes, ht, hs⟩ := (copy_succeeds_iff last_node to_node).1 hcopy
  have hmem : last_node ∈ item.graph.node := by
    obtain ⟨_, _, hg⟩ := GetInputNode_some _ _ _ hlast
    exact (GetNode_some _ _ _ hg).1
  refine ⟨(AddScalarConstNode env.kAutotune item.graph).1,
    { name := prefetchNodeName last_node item.graph,
      op := kPrefetchDataset,
      input := [last_node.name, (AddScalarConstNode env.kAutotune item.graph).1.name],
      attr := [(kOutputTypes, types), (kOutputShapes, shapes)] }, ?_, ?_, ?_, ?_, rfl, rfl, ?_,
    rfl, rfl⟩
  · rw [run_reaches_injectAfter env self item stats f sink_node last_node hon hfun hfetch hsink
      hlast hop]
    exact congrArg some
      (injectAfter_success env last_node item.graph stats types shapes hmem ht hs)
  · simp
  · intro n hn
    exact ⟨SetUniqueGraphNodeName_fresh kConstOpName item.graph { op := kConstOpName } n hn,
      SetUniqueGraphNodeName_fresh _ item.graph {} n hn⟩
  · exact const_name_ne_prefetch_name env.kAutotune last_node item.graph item.graph
  · simp [AddScalarConstNode, AddNode, SetUniqueGraphNodeName, SetAttr, FindAttr]

/-- Claim C2 at the pipeline `A -> B -> Sink`, counter at 0. -/
theorem injection_shape_witness :
    ({ autotune_ := true } : InjectPrefetch).autotune_ = true ∧
    envTop.IsItemDerivedFromFunctionDef itemABSink itemABSink.graph = false ∧
    itemABSink.fetch = ["Sink"] ∧
    GetNode itemABSink.graph "Sink" = some { name := "Sink", op := "Identity", input := ["B"] } ∧
    GetInputNode { name := "Sink", op := "Identity", input := ["B"] } itemABSink.graph =
      some { name := "B", op := "MapDataset", input := ["A"], attr := datasetAttrs } ∧
    ({ name := "B", op := "MapDataset", input := ["A"], attr := datasetAttrs } : NodeDef).op ≠
      "PrefetchDataset" ∧
    (CopyShapesAndTypesAttrs
      { name := "B", op := "MapDataset", input := ["A"], attr := datasetAttrs } {}).1 = true ∧
    ∃ C P : NodeDef,
      OptimizeAndCollectStats envTop { autotune_ := true } itemABSink { num_changes := 0 } =
        some { status := Status.OK,
               output := { node :=
                 itemABSink.graph.node.map (redirectInputs "B" P.name) ++ [C, P] },
               stats := { num_changes := 0 + 1 } } ∧
      (itemABSink.graph.node.map (redirectInputs "B" P.name) ++ [C, P]).length =
        itemABSink.graph.node.length + 2 ∧
      (∀ n ∈ itemABSink.graph.node, n.name ≠ C.name ∧ n.name ≠ P.name) ∧
      C.name ≠ P.name ∧
      C.op = "Const" ∧ C.input = [] ∧
      FindAttr C.attr "value" = some (AttrValue.tensor DataType.DT_INT64 envTop.kAutotune) ∧
      P.op = "PrefetchDataset" ∧ P.input = ["B", C.name] :=
  ⟨rfl, rfl, rfl, by decide, by decide, by decide, by decide,
    injection_shape envTop { autotune_ := true } itemABSink { num_changes := 0 } "Sink"
      { name := "Sink", op := "Identity", input := ["B"] }
      { name := "B", op := "MapDataset", input := ["A"], attr := datasetAttrs } {}
      rfl rfl rfl (by decide) (by decide) (by decide) (by decide)⟩

/-- Claim C3 (fanout correctness): whenever the call performs the injection
(`num_changes` incremented, which happens on an OK return only), with `L` the
last producing node and `P` the new prefetch node: the output graph is the
input graph with every input naming `L` renamed to `P`, followed by the
constant node and `P`; so each
node of the input graph keeps its position and name and has `P` wherever it had
`L` as an input, in particular the sink, whose first input now resolves to `P`;
and the only node of the output graph with an input naming `L` is `P`, which
does not consume itself. -/
theorem fanout_correctness (env : Env) (self : InjectPrefetch) (item : GrapplerItem)
    (stats : OptimizationStats) (out : Outcome)
    (hrun : OptimizeAndCollectStats env self item stats = some out)
    (hinc : out.stats.num_changes = stats.num_changes + 1) :
    ∃ (f : String) (sink_node last_node C P : NodeDef),
      out.status = Status.OK ∧ item.fetch = [f] ∧ GetNode item.graph f = some sink_node ∧
      GetInputNode sink_node item.graph = some last_node ∧
      P.op = "PrefetchDataset" ∧ (∀ n ∈ item.graph.node, n.name ≠ P.name) ∧
      out.output.node = item.graph.node.map (redirectInputs last_node.name P.name) ++ [C, P] ∧
      (∀ (i : Nat) (n : NodeDef), item.graph.node[i]? = some n →
        ∃ n', out.output.node[i]? = some n' ∧ n'.name = n.name ∧
          ∀ j : Nat, n.input[j]? = some last_node.name → n'.input[j]? = some P.name) ∧
      GetNode out.output f = some (redirectInputs last_node.name P.name sink_node) ∧
      GetInputNode (redirectInputs last_node.name P.name sink_node) out.output = some P ∧
      last_node.name ∈ P.input ∧ P.name ∉ P.input ∧
      (∀ n ∈ out.output.node, last_node.name ∈ n.input → n = P) := by
  obtain ⟨f, sink_node, last_node, types, shapes, hfetch, hsink, hlast, _, _, hout⟩ :=
    injection_performed env self item stats out hrun hinc
  have hfresh : ∀ n ∈ item.graph.node, n.name ≠ prefetchNodeName last_node item.graph :=
    SetUniqueGraphNodeName_fresh _ item.graph {}
  have hcn := const_name_ne_prefetch_name env.kAutotune last_node item.graph item.graph
  obtain ⟨rest, hin, hg⟩ := GetInputNode_some _ _ _ hlast
  have hmem : last_node ∈ item.graph.node := (GetNode_some _ _ _ hg).1
  have hab : last_node.name ≠ prefetchNodeName last_node item.graph := hfresh _ hmem
  refine ⟨f, sink_node, last_node, (AddScalarConstNode env.kAutotune item.graph).1,
    { name := prefetchNodeName last_node item.graph,
      op := kPrefetchDataset,
      input := [last_node.name, (AddScalarConstNode env.kAutotune item.graph).1.name],
      attr := [(kOutputTypes, types), (kOutputShapes, shapes)] },
    by rw [hout], hfetch, hsink, hlast, rfl, hfresh, by rw [hout], ?_, ?_, ?_, ?_, ?_, ?_⟩
  · intro i n hi
    refine ⟨redirectInputs last_node.name (prefetchNodeName last_node item.graph) n, ?_, rfl, ?_⟩
    · have hlt : i < (item.graph.node.map
          (redirectInputs last_node.name (prefetchNodeName last_node item.graph))).length := by
        rw [List.length_map]
        exact (List.getElem?_eq_some.1 hi).1
      rw [hout]
      simp only
      rw [List.getElem?_append_left hlt, List.getElem?_map, hi]
      rfl
    · intro j hj
      simp only [redirectInputs, List.getElem?_map, hj, Option.map_some', if_true]
  · rw [hout]
    simp only
    apply GetNode_append_found
    rw [GetNode_map_redirect]
    have : GetNode { node := item.graph.node } f = some sink_node := hsink
    rw [this]
    rfl
  · rw [hout]
    simp only [GetInputNode, redirectInputs, hin, List.map_cons, if_true]
    rw [GetNode_append_fresh]
    · simp [GetNode, hcn]
    · intro n hn
      obtain ⟨m, hm, rfl⟩ := List.mem_map.1 hn
      exact hfresh m hm
  · simp
  · simp only [List.mem_cons, List.mem_singleton, List.not_mem_nil, or_false, not_or]
    exact ⟨fun h => hab h.symm, fun h => hcn h.symm⟩
  · intro n hn hL
    rw [hout] at hn
    simp only [List.mem_append, List.mem_map, List.mem_cons, List.mem_singleton,
      List.not_mem_nil, or_false] at hn
    rcases hn with ⟨m, _, rfl⟩ | rfl | rfl
    · exfalso
      simp only [redirectInputs, List.mem_map] at hL
      obtain ⟨s, _, hs⟩ := hL
      by_cases h : s = last_node.name
      · rw [if_pos h] at hs
        exact hab hs.symm
      · rw [if_neg h] at hs
        exact h hs
    · exfalso
      have : (AddScalarConstNode env.kAutotune item.graph).1.input = [] := rfl
      rw [this] at hL
      exact List.not_mem_nil _ hL
    · rfl

/-- Claim C3 at the pipeline `A -> B -> Sink`. -/
theorem fanout_correctness_witness :
    OptimizeAndCollectStats envTop { autotune_ := true } itemABSink {} = some outABSink ∧
    outABSink.stats.num_changes = ({} : OptimizationStats).num_changes + 1 ∧
    ∃ (f : String) (sink_node last_node C P : NodeDef),
      outABSink.status = Status.OK ∧ itemABSink.fetch = [f] ∧
      GetNode itemABSink.graph f = some sink_node ∧
      GetInputNode sink_node itemABSink.graph = some last_node ∧
      P.op = "PrefetchDataset" ∧ (∀ n ∈ itemABSink.graph.node, n.name ≠ P.name) ∧
      outABSink.output.node =
        itemABSink.graph.node.map (redirectInputs last_node.name P.name) ++ [C, P] ∧
      (∀ (i : Nat) (n : NodeDef), itemABSink.graph.node[i]? = some n →
        ∃ n', outABSink.output.node[i]? = some n' ∧ n'.name = n.name ∧
          ∀ j : Nat, n.input[j]? = some last_node.name → n'.input[j]? = some P.name) ∧
      GetNode outABSink.output f = some (redirectInputs last_node.name P.name sink_node) ∧
      GetInputNode (redirectInputs last_node.name P.name sink_node) outABSink.output = some P ∧
      last_node.name ∈ P.input ∧ P.name ∉ P.input ∧
      (∀ n ∈ outABSink.output.node, last_node.name ∈ n.input → n = P) :=
  ⟨by decide, by decide,
    fanout_correctness envTop { autotune_ := true } itemABSink {} outABSink (by decide)
      (by decide)⟩

/-- Claim C4 (metadata preservation): whenever the call performs the injection
(`num_changes` incremented, which happens on an OK return only), the new
prefetch node `P`, the last node of the output graph and not a node of the
input graph, has the `output_types` and `output_shapes` of the last producing
node `L` of the input graph, both present; and `L` is found in the output graph
with its name, op and attributes unchanged. -/
theorem metadata_preserved (env : Env) (self : InjectPrefetch) (item : GrapplerItem)
    (stats : OptimizationStats) (out : Outcome)
    (hrun : OptimizeAndCollectStats env self item stats = some out)
    (hinc : out.stats.num_changes = stats.num_changes + 1) :
    ∃ (f : String) (sink_node last_node P last_node_out : NodeDef),
      out.status = Status.OK ∧ item.fetch = [f] ∧
      GetNode item.graph f = some sink_node ∧
      GetInputNode sink_node item.graph = some last_node ∧
      out.output.node.getLast? = some P ∧ GetNode out.output P.name = some P ∧
      P.op = "PrefetchDataset" ∧ (∀ n ∈ item.graph.node, n.name ≠ P.name) ∧
      FindAttr P.attr "output_types" = FindAttr last_node.attr "output_types" ∧
      FindAttr P.attr "output_shapes" = FindAttr last_node.attr "output_shapes" ∧
      (FindAttr last_node.attr "output_types").isSome = true ∧
      (FindAttr last_node.attr "output_shapes").isSome = true ∧
      GetNode out.output last_node.name = some last_node_out ∧
      last_node_out.name = last_node.name ∧ last_node_out.op = last_node.op ∧
      last_node_out.attr = last_node.attr := by
  obtain ⟨f, sink_node, last_node, types, shapes, hfetch, hsink, hlast, ht, hs, hout⟩ :=
    injection_performed env self item stats out hrun hinc
  have hfresh : ∀ n ∈ item.graph.node, n.name ≠ prefetchNodeName last_node item.graph :=
    SetUniqueGraphNodeName_fresh _ item.graph {}
  have hcn := const_name_ne_prefetch_name env.kAutotune last_node item.graph item.graph
  obtain ⟨rest, hin, hg⟩ := GetInputNode_some _ _ _ hlast
  have ht2 : FindAttr last_node.attr "output_types" = some types := ht
  have hs2 : FindAttr last_node.attr "output_shapes" = some shapes := hs
  refine ⟨f, sink_node, last_node,
    { name := prefetchNodeName last_node item.graph,
      op := kPrefetchDataset,
      input := [last_node.name, (AddScalarConstNode env.kAutotune item.graph).1.name],
      attr := [(kOutputTypes, types), (kOutputShapes, shapes)] },
    redirectInputs last_node.name (prefetchNodeName last_node item.graph) last_node,
    by rw [hout], hfetch, hsink, hlast, ?_, ?_, rfl, hfresh, ?_, ?_, ?_, ?_, ?_, rfl, rfl, rfl⟩
  · rw [hout]
    simp
  · rw [hout]
    simp only
    rw [GetNode_append_fresh]
    · simp [GetNode, hcn]
    · intro n hn
      obtain ⟨m, hm, rfl⟩ := List.mem_map.1 hn
      exact hfresh m hm
  · rw [ht2]
    simp [FindAttr, kOutputTypes]
  · rw [hs2]
    simp [FindAttr, kOutputTypes, kOutputShapes]
  · rw [ht2]; rfl
  · rw [hs2]; rfl
  · rw [hout]
    simp only
    apply GetNode_append_found
    rw [GetNode_map_redirect]
    have : GetNode { node := item.graph.node } last_node.name = some last_node := hg
    rw [this]
    rfl

/-- Claim C4 at the pipeline `A -> B -> Sink`. -/
theorem metadata_preserved_witness :
    OptimizeAndCollectStats envTop { autotune_ := true } itemABSink {} = some outABSink ∧
    outABSink.stats.num_changes = ({} : OptimizationStats).num_changes + 1 ∧
    ∃ (f : String) (sink_node last_node P last_node_out : NodeDef),
      outABSink.status = Status.OK ∧ itemABSink.fetch = [f] ∧
      GetNode itemABSink.graph f = some sink_node ∧
      GetInputNode sink_node itemABSink.graph = some last_node ∧
      outABSink.output.node.getLast? = some P ∧ GetNode outABSink.output P.name = some P ∧
      P.op = "PrefetchDataset" ∧ (∀ n ∈ itemABSink.graph.node, n.name ≠ P.name) ∧
      FindAttr P.attr "output_types" = FindAttr last_node.attr "output_types" ∧
      FindAttr P.attr "output_shapes" = FindAttr last_node.attr "output_shapes" ∧
      (FindAttr last_node.attr "output_types").isSome = true ∧
      (FindAttr last_node.attr "output_shapes").isSome = true ∧
      GetNode outABSink.output last_node.name = some last_node_out ∧
      last_node_out.name = last_node.name ∧ last_node_out.op = last_node.op ∧
      last_node_out.attr = last_node.attr :=
  ⟨by decide, by decide,
    metadata_preserved envTop { autotune_ := true } itemABSink {} outABSink (by decide)
      (by decide)⟩

/-! ## The attribute-copy abort -/

/-- Claim C5 (idempotence) fails on the code: at the pipeline `A -> B -> Sink`
whose `B` lacks the shape and type attributes the first application returns OK
with the graph `G1` (the input plus a stray constant node), and the second
application, run on `G1` with the same fetch list and flag, returns OK with a
graph that has one more constant node, hence differs from `G1`. -/
theorem second_application_grows_graph :
    OptimizeAndCollectStats envTop { autotune_ := true } itemNoAttrs {} =
      some { status := Status.OK,
             output := { node := graphNoAttrs.node ++ [constNode "Const" (-1)] },
             stats := {} } ∧
    OptimizeAndCollectStats envTop { autotune_ := true }
        { graph := { node := graphNoAttrs.node ++ [constNode "Const" (-1)] },
          fetch := itemNoAttrs.fetch } {} =
      some { status := Status.OK,
             output := { node := graphNoAttrs.node ++
               [constNode "Const" (-1), constNode "Const/_4" (-1)] },
             stats := {} } ∧
    ({ node := graphNoAttrs.node ++ [constNode "Const" (-1), constNode "Const/_4" (-1)] } :
        GraphDef) ≠
      { node := graphNoAttrs.node ++ [constNode "Const" (-1)] } := by
  refine ⟨by decide, by decide, by decide⟩

/-- Claim C6 (attribute-copy failure leaves the graph unchanged) fails on the
code: the item `A -> B -> Sink` passes the four preconditions, the copy from
`B` fails, the call returns OK with the counter unchanged, but the output graph
is the input graph plus the constant node added at lines 77-78, before the copy
is attempted. -/
theorem copy_failure_keeps_const_node :
    ({ autotune_ := true } : InjectPrefetch).autotune_ = true ∧
    envTop.IsItemDerivedFromFunctionDef itemNoAttrs itemNoAttrs.graph = false ∧
    itemNoAttrs.fetch = ["Sink"] ∧
    GetNode itemNoAttrs.graph "Sink" = some { name := "Sink", op := "Identity", input := ["B"] } ∧
    GetInputNode { name := "Sink", op := "Identity", input := ["B"] } itemNoAttrs.graph =
      some { name := "B", op := "MapDataset", input := ["A"] } ∧
    (CopyShapesAndTypesAttrs { name := "B", op := "MapDataset", input := ["A"] }
      { name := "inject/prefetch_B", op := "PrefetchDataset", input := ["B", "Const"] }).1 =
        false ∧
    OptimizeAndCollectStats envTop { autotune_ := true } itemNoAttrs { num_changes := 0 } =
      some { status := Status.OK,
             output := { node := itemNoAttrs.graph.node ++ [constNode "Const" (-1)] },
             stats := { num_changes := 0 } } ∧
    ({ node := itemNoAttrs.graph.node ++ [constNode "Const" (-1)] } : GraphDef) ≠
      itemNoAttrs.graph := by
  refine ⟨rfl, rfl, rfl, by decide, by decide, by decide, by decide, by decide⟩

/-! ## The fetch-count error and the no-ops -/

/-- The branch taken at lines 53-57, shared by the fetch-count theorems. -/
theorem fetch_count_branch (env : Env) (self : InjectPrefetch) (item : GrapplerItem)
    (stats : OptimizationStats) (hon : self.autotune_ = true)
    (hfun : env.IsItemDerivedFromFunctionDef item item.graph = false)
    (hfetch : item.fetch.length ≠ 1) :
    OptimizeAndCollectStats env self item stats =
      some { status := Status.InvalidArgument (fetchCountMessage item.fetch),
             output := item.graph, stats := stats } := by
  simp [OptimizeAndCollectStats, hon, hfun, hfetch]

/-- Claim C7 as stated fails: with an empty fetch list the call returns OK, not
an InvalidArgument error, both when autotune is off and when autotune is on and
the item is derived from a function definition. -/
theorem fetch_count_error_is_gated :
    itemNoFetch.fetch.length = 0 ∧
    OptimizeAndCollectStats envTop { autotune_ := false } itemNoFetch {} =
      some { status := Status.OK, output := itemNoFetch.graph, stats := {} } ∧
    OptimizeAndCollectStats envFunc { autotune_ := true } itemNoFetch {} =
      some { status := Status.OK, output := itemNoFetch.graph, stats := {} } ∧
    ¬ (∀ (env : Env) (self : InjectPrefetch) (item : GrapplerItem) (stats : OptimizationStats),
        (item.fetch.length = 0 ∨ 2 ≤ item.fetch.length) →
        ∃ msg out, OptimizeAndCollectStats env self item stats = some out ∧
          out.status = Status.InvalidArgument msg ∧ out.output = item.graph) := by
  refine ⟨rfl, ?_, ?_, ?_⟩
  · simp [OptimizeAndCollectStats]
  · simp [OptimizeAndCollectStats, envFunc]
  · intro h
    obtain ⟨msg, out, hrun, hst, _⟩ := h envTop { autotune_ := false } itemNoFetch {} (Or.inl rfl)
    simp [OptimizeAndCollectStats] at hrun
    rw [← hrun] at hst
    exact Status.noConfusion hst

/-- Claim C7, amended (fetch-count invariant): for every item whose fetch list
has zero or at least two names, for every graph, every autotune setting and
every environment, the call returns with the output graph equal to the input
graph and the statistics unchanged; the status is an InvalidArgument error when
autotune is on and the item is not derived from a function definition, and OK
otherwise. -/
theorem fetch_count_invariant (env : Env) (self : InjectPrefetch) (item : GrapplerItem)
    (stats : OptimizationStats)
    (hfetch : item.fetch.length = 0 ∨ 2 ≤ item.fetch.length) :
    ∃ out, OptimizeAndCollectStats env self item stats = some out ∧
      out.output = item.graph ∧ out.stats = stats ∧
      (self.autotune_ = true → env.IsItemDerivedFromFunctionDef item item.graph = false →
        ∃ msg, out.status = Status.InvalidArgument msg) ∧
      (self.autotune_ = false ∨ env.IsItemDerivedFromFunctionDef item item.graph = true →
        out.status = Status.OK) := by
  have hne : item.fetch.length ≠ 1 := by omega
  cases hon : self.autotune_ with
  | false =>
    refine ⟨{ status := Status.OK, output := item.graph, stats := stats }, ?_, rfl, rfl, ?_, ?_⟩
    · simp [OptimizeAndCollectStats, hon]
    · intro h; exact Bool.noConfusion h
    · intro _; rfl
  | true =>
    cases hfun : env.IsItemDerivedFromFunctionDef item item.graph with
    | true =>
      refine ⟨{ status := Status.OK, output := item.graph, stats := stats }, ?_, rfl, rfl,
        ?_, ?_⟩
      · simp [OptimizeAndCollectStats, hon, hfun]
      · intro _ h; exact Bool.noConfusion h
      · intro _; rfl
    | false =>
      refine ⟨_, fetch_count_branch env self item stats hon hfun hne, rfl, rfl, ?_, ?_⟩
      · intro _ _; exact ⟨_, rfl⟩
      · intro h
        rcases h with h | h <;> exact Bool.noConfusion h

/-- Claim C7, amended, at an item without fetch names, autotune on. -/
theorem fetch_count_invariant_witness :
    (itemNoFetch.fetch.length = 0 ∨ 2 ≤ itemNoFetch.fetch.length) ∧
    ∃ out, OptimizeAndCollectStats envTop { autotune_ := true } itemNoFetch {} = some out ∧
      out.output = itemNoFetch.graph ∧ out.stats = {} ∧
      (({ autotune_ := true } : InjectPrefetch).autotune_ = true →
        envTop.IsItemDerivedFromFunctionDef itemNoFetch itemNoFetch.graph = false →
        ∃ msg, out.status = Status.InvalidArgument msg) ∧
      (({ autotune_ := true } : InjectPrefetch).autotune_ = false ∨
          envTop.IsItemDerivedFromFunctionDef itemNoFetch itemNoFetch.graph = true →
        out.status = Status.OK) :=
  ⟨Or.inl rfl,
    fetch_count_invariant envTop { autotune_ := true } itemNoFetch {} (Or.inl rfl)⟩

/-- Claim C8 (fetch-count error and its diagnostic): with autotune on and an
item not derived from a function definition, a fetch list whose size is not 1
yields InvalidArgument with the message
`Expected only one fetch node but there were <size>: <names joined by ", ">`,
the output graph is `item.graph` and the statistics are unchanged; for the
fetch list `[X, Y]` the message names the count 2 and both `X` and `Y`. -/
theorem fetch_count_diagnostic (env : Env) (self : InjectPrefetch) (item : GrapplerItem)
    (stats : OptimizationStats) (hon : self.autotune_ = true)
    (hfun : env.IsItemDerivedFromFunctionDef item item.graph = false)
    (hfetch : item.fetch.length ≠ 1) :
    OptimizeAndCollectStats env self item stats =
      some { status := Status.InvalidArgument
               ("Expected only one fetch node but there were " ++
                 toString item.fetch.length ++ ": " ++ ", ".intercalate item.fetch),
             output := item.graph, stats := stats } ∧
    ∀ X Y : String, item.fetch = [X, Y] →
      OptimizeAndCollectStats env self item stats =
        some { status := Status.InvalidArgument
                 ("Expected only one fetch node but there were 2: " ++ X ++ ", " ++ Y),
               output := item.graph, stats := stats } := by
  have h := fetch_count_branch env self item stats hon hfun hfetch
  refine ⟨h, ?_⟩
  intro X Y hXY
  rw [h, hXY]
  have hj : ", ".intercalate [X, Y] = X ++ ", " ++ Y := by
    simp [String.intercalate, String.intercalate.go]
  have hn : toString (2 : Nat) = "2" := by decide
  simp only [fetchCountMessage, hj, List.length_cons, List.length_nil, Nat.zero_add,
    Nat.reduceAdd, hn, String.append_assoc]
  rfl

/-- Claim C8 at the fetch list `[X, Y]`. -/
theorem fetch_count_diagnostic_witness :
    ({ autotune_ := true } : InjectPrefetch).autotune_ = true ∧
    envTop.IsItemDerivedFromFunctionDef itemTwoFetches itemTwoFetches.graph = false ∧
    itemTwoFetches.fetch.length ≠ 1 ∧
    OptimizeAndCollectStats envTop { autotune_ := true } itemTwoFetches { num_changes := 4 } =
      some { status := Status.InvalidArgument
               "Expected only one fetch node but there were 2: X, Y",
             output := graphABSink, stats := { num_changes := 4 } } :=
  ⟨rfl, rfl, by decide,
    (fetch_count_diagnostic envTop { autotune_ := true } itemTwoFetches { num_changes := 4 }
      rfl rfl (by decide)).2 "X" "Y" rfl⟩

/-- Claim C9 (already-buffered no-op): with autotune on, an item not derived
from a function definition and exactly one fetch name resolving to a sink whose
first input resolves to a node with op `PrefetchDataset`, the call returns OK,
the output graph equals the input graph and the statistics are unchanged. -/
theorem already_prefetched_is_identity (env : Env) (self : InjectPrefetch)
    (item : GrapplerItem) (stats : OptimizationStats) (f : String)
    (sink_node last_node : NodeDef) (hon : self.autotune_ = true)
    (hfun : env.IsItemDerivedFromFunctionDef item item.graph = false)
    (hfetch : item.fetch = [f])
    (hsink : GetNode item.graph f = some sink_node)
    (hlast : GetInputNode sink_node item.graph = some last_node)
    (hop : last_node.op = "PrefetchDataset") :
    OptimizeAndCollectStats env self item stats =
      some { status := Status.OK, output := item.graph, stats := stats } := by
  simp [OptimizeAndCollectStats, hon, hfun, hfetch, hsink, hlast, hop, kPrefetchDataset]

/-- Claim C9 at the pipeline `A -> B -> Sink` with `B` a prefetch stage and the
counter at 0. -/
theorem already_prefetched_is_identity_witness :
    ({ autotune_ := true } : InjectPrefetch).autotune_ = true ∧
    envTop.IsItemDerivedFromFunctionDef itemPrefetched itemPrefetched.graph = false ∧
    itemPrefetched.fetch = ["Sink"] ∧
    GetNode itemPrefetched.graph "Sink" =
      some { name := "Sink", op := "Identity", input := ["B"] } ∧
    GetInputNode { name := "Sink", op := "Identity", input := ["B"] } itemPrefetched.graph =
      some { name := "B", op := "PrefetchDataset", input := ["A", "n"],
             attr := datasetAttrs } ∧
    OptimizeAndCollectStats envTop { autotune_ := true } itemPrefetched { num_changes := 0 } =
      some { status := Status.OK, output := graphPrefetched,
             stats := { num_changes := 0 } } :=
  ⟨rfl, rfl, rfl, by decide, by decide,
    already_prefetched_is_identity envTop { autotune_ := true } itemPrefetched
      { num_changes := 0 } "Sink" { name := "Sink", op := "Identity", input := ["B"] }
      { name := "B", op := "PrefetchDataset", input := ["A", "n"], attr := datasetAttrs }
      rfl rfl rfl (by decide) (by decide) rfl⟩

/-- Claim C10 (function-derived no-op): with autotune on and an item derived
from a function definition, whatever the fetch list, the call returns OK, the
output graph equals the input graph and the statistics are unchanged. -/
theorem function_derived_is_identity (env : Env) (self : InjectPrefetch)
    (item : GrapplerItem) (stats : OptimizationStats) (hon : self.autotune_ = true)
    (hfun : env.IsItemDerivedFromFunctionDef item item.graph = true) :
    OptimizeAndCollectStats env self item stats =
      some { status := Status.OK, output := item.graph, stats := stats } := by
  simp [OptimizeAndCollectStats, hon, hfun]

/-- Claim C10 at an item with two fetch names. -/
theorem function_derived_is_identity_witness :
    ({ autotune_ := true } : InjectPrefetch).autotune_ = true ∧
    envFunc.IsItemDerivedFromFunctionDef itemTwoFetches itemTwoFetches.graph = true ∧
    OptimizeAndCollectStats envFunc { autotune_ := true } itemTwoFetches { num_changes := 2 } =
      some { status := Status.OK, output := itemTwoFetches.graph,
             stats := { num_changes := 2 } } :=
  ⟨rfl, rfl, function_derived_is_identity envFunc { autotune_ := true } itemTwoFetches
    { num_changes := 2 } rfl rfl⟩

/-- The three shapes of an outcome: the input graph untouched; the input graph
plus the constant node (aborted rewrite); the completed injection. -/
theorem run_outcomes (env : Env) (self : InjectPrefetch) (item : GrapplerItem)
    (stats : OptimizationStats) (out : Outcome)
    (hrun : OptimizeAndCollectStats env self item stats = some out) :
    (out.output = item.graph ∧ out.stats = stats ∧
      (out.status = Status.OK ∨
        out.status = Status.InvalidArgument (fetchCountMessage item.fetch))) ∨
    (∃ f sink_node last_node,
      item.fetch = [f] ∧ GetNode item.graph f = some sink_node ∧
      GetInputNode sink_node item.graph = some last_node ∧
      out = { status := Status.OK,
              output := { node := item.graph.node ++
                [(AddScalarConstNode env.kAutotune item.graph).1] },
              stats := stats }) ∨
    (∃ f sink_node last_node types shapes,
      item.fetch = [f] ∧ GetNode item.graph f = some sink_node ∧
      GetInputNode sink_node item.graph = some last_node ∧
      out = { status := Status.OK,
              output := { node :=
                item.graph.node.map (redirectInputs last_node.name
                    (prefetchNodeName last_node item.graph)) ++
                  [(AddScalarConstNode env.kAutotune item.graph).1,
                   { name := prefetchNodeName last_node item.graph,
                     op := kPrefetchDataset,
                     input := [last_node.name,
                       (AddScalarConstNode env.kAutotune item.graph).1.name],
                     attr := [(kOutputTypes, types), (kOutputShapes, shapes)] }] },
              stats := { num_changes := stats.num_changes + 1 } }) := by
  rcases run_cases env self item stats out hrun with h | h
  · exact Or.inl h
  · obtain ⟨f, sink_node, last_node, _, _, hfetch, hsink, hlast, _, hout⟩ := h
    have hmem : last_node ∈ item.graph.node := by
      obtain ⟨_, _, hg⟩ := GetInputNode_some _ _ _ hlast
      exact (GetNode_some _ _ _ hg).1
    cases ht : FindAttr last_node.attr kOutputTypes with
    | none =>
      refine Or.inr (Or.inl ⟨f, sink_node, last_node, hfetch, hsink, hlast, ?_⟩)
      rw [hout]
      exact injectAfter_copy_fails env last_node item.graph stats (Or.inl ht)
    | some types =>
      cases hs : FindAttr last_node.attr kOutputShapes with
      | none =>
        refine Or.inr (Or.inl ⟨f, sink_node, last_node, hfetch, hsink, hlast, ?_⟩)
        rw [hout]
        exact injectAfter_copy_fails env last_node item.graph stats (Or.inr hs)
      | some shapes =>
        refine Or.inr (Or.inr ⟨f, sink_node, last_node, types, shapes, hfetch, hsink, hlast, ?_⟩)
        rw [hout]
        exact injectAfter_success env last_node item.graph stats types shapes hmem ht hs

/-! ## The change counter and the rewiring -/

/-- Claim C11 (change counter): for every call that returns, whatever the
status, `num_changes` afterwards equals its value before or is exactly one
greater, never smaller; it is one greater if and only if the call returns OK
and the output graph is the input graph with the consumers of the last
producing node `L` redirected to a new node `P` of op `PrefetchDataset`,
followed by the constant node and `P`. -/
theorem change_counter (env : Env) (self : InjectPrefetch) (item : GrapplerItem)
    (stats : OptimizationStats) (out : Outcome)
    (hrun : OptimizeAndCollectStats env self item stats = some out) :
    (out.stats.num_changes = stats.num_changes ∨
      out.stats.num_changes = stats.num_changes + 1) ∧
    stats.num_changes ≤ out.stats.num_changes ∧
    (out.stats.num_changes = stats.num_changes + 1 ↔
      out.status = Status.OK ∧
      ∃ (f : String) (sink_node last_node C P : NodeDef),
        item.fetch = [f] ∧ GetNode item.graph f = some sink_node ∧
        GetInputNode sink_node item.graph = some last_node ∧
        P.op = "PrefetchDataset" ∧ (∀ n ∈ item.graph.node, n.name ≠ P.name) ∧
        out.output.node =
          item.graph.node.map (redirectInputs last_node.name P.name) ++ [C, P]) := by
  rcases run_outcomes env self item stats out hrun with
    ⟨hg, hst, _⟩ | ⟨f, sink_node, last_node, _, _, _, hout⟩ |
    ⟨f, sink_node, last_node, types, shapes, hfetch, hsink, hlast, hout⟩
  · refine ⟨Or.inl (by rw [hst]), by rw [hst], ?_⟩
    constructor
    · intro h
      rw [hst] at h
      omega
    · rintro ⟨_, f, sink_node, last_node, C, P, _, _, _, _, _, hnode⟩
      exfalso
      have hlen := congrArg List.length hnode
      rw [hg] at hlen
      simp at hlen
  · refine ⟨Or.inl (by rw [hout]), by rw [hout], ?_⟩
    constructor
    · intro h
      rw [hout] at h
      simp only at h
      omega
    · rintro ⟨_, f, sink_node, last_node, C, P, _, _, _, _, _, hnode⟩
      exfalso
      have hlen := congrArg List.length hnode
      rw [hout] at hlen
      simp at hlen
  · refine ⟨Or.inr (by rw [hout]), by rw [hout]; simp, ?_⟩
    constructor
    · intro _
      exact ⟨by rw [hout], f, sink_node, last_node,
        (AddScalarConstNode env.kAutotune item.graph).1,
        { name := prefetchNodeName last_node item.graph,
          op := kPrefetchDataset,
          input := [last_node.name, (AddScalarConstNode env.kAutotune item.graph).1.name],
          attr := [(kOutputTypes, types), (kOutputShapes, shapes)] },
        hfetch, hsink, hlast, rfl, SetUniqueGraphNodeName_fresh _ item.graph {},
        by rw [hout]⟩
    · intro _
      rw [hout]

/-- Claim C11 at the pipeline `A -> B -> Sink`. -/
theorem change_counter_witness :
    OptimizeAndCollectStats envTop { autotune_ := true } itemABSink {} = some outABSink ∧
    (outABSink.stats.num_changes = ({} : OptimizationStats).num_changes ∨
      outABSink.stats.num_changes = ({} : OptimizationStats).num_changes + 1) ∧
    ({} : OptimizationStats).num_changes ≤ outABSink.stats.num_changes ∧
    (outABSink.stats.num_changes = ({} : OptimizationStats).num_changes + 1 ↔
      outABSink.status = Status.OK ∧
      ∃ (f : String) (sink_node last_node C P : NodeDef),
        itemABSink.fetch = [f] ∧ GetNode itemABSink.graph f = some sink_node ∧
        GetInputNode sink_node itemABSink.graph = some last_node ∧
        P.op = "PrefetchDataset" ∧ (∀ n ∈ itemABSink.graph.node, n.name ≠ P.name) ∧
        outABSink.output.node =
          itemABSink.graph.node.map (redirectInputs last_node.name P.name) ++ [C, P]) :=
  ⟨by decide,
    change_counter envTop { autotune_ := true } itemABSink {} outABSink (by decide)⟩


/-- The allocator returns the hint itself when no node carries it. -/
theorem SetUniqueGraphNodeName_unused (hint : String) (graph : GraphDef) (node : NodeDef)
    (h : ∀ n ∈ graph.node, n.name ≠ hint) :
    (SetUniqueGraphNodeName hint graph node).name = hint := by
  have hc : ContainsGraphNodeWithName hint graph = false := by
    cases hb : ContainsGraphNodeWithName hint graph with
    | false => rfl
    | true =>
      obtain ⟨n, hn, hname⟩ := List.mem_map.1 ((contains_iff hint graph).1 hb)
      exact absurd hname (h n hn)
  simp [SetUniqueGraphNodeName, SetUniqueGraphNodeNameLoop, hc]

/-- Claim C13 (new node name): whenever the call inserts the prefetch node `P`
(`num_changes` incremented), with `L` the last producing node, the name of `P`
starts with `inject/prefetch_` followed by the name of `L`, differs from the
name of every node of the input graph, and is exactly that string when no node
of the input graph carries it. -/
theorem new_node_name (env : Env) (self : InjectPrefetch) (item : GrapplerItem)
    (stats : OptimizationStats) (out : Outcome)
    (hrun : OptimizeAndCollectStats env self item stats = some out)
    (hinc : out.stats.num_changes = stats.num_changes + 1) :
    ∃ (f : String) (sink_node last_node C P : NodeDef),
      out.status = Status.OK ∧ item.fetch = [f] ∧ GetNode item.graph f = some sink_node ∧
      GetInputNode sink_node item.graph = some last_node ∧
      out.output.node = item.graph.node.map (redirectInputs last_node.name P.name) ++ [C, P] ∧
      P.op = "PrefetchDataset" ∧
      (∃ rest : String, P.name = "inject/prefetch_" ++ last_node.name ++ rest) ∧
      (∀ n ∈ item.graph.node, n.name ≠ P.name) ∧
      ((∀ n ∈ item.graph.node, n.name ≠ "inject/prefetch_" ++ last_node.name) →
        P.name = "inject/prefetch_" ++ last_node.name) := by
  obtain ⟨f, sink_node, last_node, types, shapes, hfetch, hsink, hlast, _, _, hout⟩ :=
    injection_performed env self item stats out hrun hinc
  refine ⟨f, sink_node, last_node, (AddScalarConstNode env.kAutotune item.graph).1,
    { name := prefetchNodeName last_node item.graph,
      op := kPrefetchDataset,
      input := [last_node.name, (AddScalarConstNode env.kAutotune item.graph).1.name],
      attr := [(kOutputTypes, types), (kOutputShapes, shapes)] },
    by rw [hout], hfetch, hsink, hlast, by rw [hout], rfl, ?_,
    SetUniqueGraphNodeName_fresh _ item.graph {}, ?_⟩
  · rcases SetUniqueGraphNodeName_shape ("inject/prefetch_" ++ last_node.name) item.graph {}
      with h | ⟨k, h⟩
    · refine ⟨"", ?_⟩
      show prefetchNodeName last_node item.graph = _
      rw [prefetchNodeName, h]
      simp
    · refine ⟨"/_" ++ toString k, ?_⟩
      show prefetchNodeName last_node item.graph = _
      rw [prefetchNodeName, h, String.append_assoc]
  · intro hfree
    exact SetUniqueGraphNodeName_unused _ item.graph {} hfree

/-- Claim C13 at the pipeline `A -> B -> Sink`. -/
theorem new_node_name_witness :
    OptimizeAndCollectStats envTop { autotune_ := true } itemABSink {} = some outABSink ∧
    outABSink.stats.num_changes = ({} : OptimizationStats).num_changes + 1 ∧
    ∃ (f : String) (sink_node last_node C P : NodeDef),
      outABSink.status = Status.OK ∧ itemABSink.fetch = [f] ∧
      GetNode itemABSink.graph f = some sink_node ∧
      GetInputNode sink_node itemABSink.graph = some last_node ∧
      outABSink.output.node =
        itemABSink.graph.node.map (redirectInputs last_node.name P.name) ++ [C, P] ∧
      P.op = "PrefetchDataset" ∧
      (∃ rest : String, P.name = "inject/prefetch_" ++ last_node.name ++ rest) ∧
      (∀ n ∈ itemABSink.graph.node, n.name ≠ P.name) ∧
      ((∀ n ∈ itemABSink.graph.node, n.name ≠ "inject/prefetch_" ++ last_node.name) →
        P.name = "inject/prefetch_" ++ last_node.name) :=
  ⟨by decide, by decide,
    new_node_name envTop { autotune_ := true } itemABSink {} outABSink (by decide)
      (by decide)⟩


/-! ## Graph invariants -/

theorem map_redirect_names (l : List NodeDef) (a b : String) :
    (l.map (redirectInputs a b)).map NodeDef.name = l.map NodeDef.name := by
  rw [List.map_map]
  rfl

/-- Claim C14 (reference closure is preserved): if every input of every node of
the input graph names a node of the input graph, then on every return of the
call (the OK returns, no-op or injection, among them) every input of every node
of the output graph, the two inputs of the new prefetch node and the rewritten
inputs of the redirected consumers included, names a node of the output
graph. -/
theorem reference_closure_preserved (env : Env) (self : InjectPrefetch)
    (item : GrapplerItem) (stats : OptimizationStats) (out : Outcome)
    (hclosed : ∀ n ∈ item.graph.node, ∀ s ∈ n.input, ∃ m ∈ item.graph.node, m.name = s)
    (hrun : OptimizeAndCollectStats env self item stats = some out) :
    ∀ n ∈ out.output.node, ∀ s ∈ n.input, ∃ m ∈ out.output.node, m.name = s := by
  rcases run_outcomes env self item stats out hrun with
    ⟨hg, _, _⟩ | ⟨f, sink_node, last_node, _, _, _, hout⟩ |
    ⟨f, sink_node, last_node, types, shapes, hfetch, hsink, hlast, hout⟩
  · rw [hg]
    exact hclosed
  · rw [hout]
    intro n hn s hs
    simp only [List.mem_append, List.mem_singleton] at hn
    rcases hn with hn | hn
    · obtain ⟨m, hm, hname⟩ := hclosed n hn s hs
      exact ⟨m, List.mem_append_left _ hm, hname⟩
    · exfalso
      rw [hn] at hs
      have : (AddScalarConstNode env.kAutotune item.graph).1.input = [] := rfl
      rw [this] at hs
      exact List.not_mem_nil _ hs
  · obtain ⟨rest, hin, hg⟩ := GetInputNode_some _ _ _ hlast
    have hmem : last_node ∈ item.graph.node := (GetNode_some _ _ _ hg).1
    rw [hout]
    intro n hn s hs
    simp only [List.mem_append, List.mem_map, List.mem_cons, List.mem_singleton,
      List.not_mem_nil, or_false] at hn
    rcases hn with ⟨m, hm, rfl⟩ | rfl | rfl
    · simp only [redirectInputs, List.mem_map] at hs
      obtain ⟨t, ht, hts⟩ := hs
      by_cases h : t = last_node.name
      · rw [if_pos h] at hts
        exact ⟨{ name := prefetchNodeName last_node item.graph,
                 op := kPrefetchDataset,
                 input := [last_node.name,
                   (AddScalarConstNode env.kAutotune item.graph).1.name],
                 attr := [(kOutputTypes, types), (kOutputShapes, shapes)] }, by simp, hts⟩
      · rw [if_neg h] at hts
        obtain ⟨m', hm', hname⟩ := hclosed m hm t ht
        refine ⟨redirectInputs last_node.name (prefetchNodeName last_node item.graph) m',
          ?_, ?_⟩
        · exact List.mem_append_left _ (List.mem_map.2 ⟨m', hm', rfl⟩)
        · rw [← hts, ← hname]
          rfl
    · exfalso
      have : (AddScalarConstNode env.kAutotune item.graph).1.input = [] := rfl
      rw [this] at hs
      exact List.not_mem_nil _ hs
    · simp only [List.mem_cons, List.mem_singleton, List.not_mem_nil, or_false] at hs
      rcases hs with rfl | rfl
      · refine ⟨redirectInputs last_node.name (prefetchNodeName last_node item.graph)
          last_node, ?_, rfl⟩
        exact List.mem_append_left _ (List.mem_map.2 ⟨last_node, hmem, rfl⟩)
      · exact ⟨(AddScalarConstNode env.kAutotune item.graph).1, by simp, rfl⟩

/-- Claim C14 at the pipeline `A -> B -> Sink`. -/
theorem reference_closure_preserved_witness :
    (∀ n ∈ itemABSink.graph.node, ∀ s ∈ n.input,
      ∃ m ∈ itemABSink.graph.node, m.name = s) ∧
    OptimizeAndCollectStats envTop { autotune_ := true } itemABSink {} = some outABSink ∧
    ∀ n ∈ outABSink.output.node, ∀ s ∈ n.input, ∃ m ∈ outABSink.output.node, m.name = s :=
  ⟨by decide, by decide,
    reference_closure_preserved envTop { autotune_ := true } itemABSink {} outABSink
      (by decide) (by decide)⟩

/-- Claim C15 (name uniqueness is preserved): if the node names of the input
graph are pairwise distinct, the node names of the output graph are pairwise
distinct on every return of the call; and the name of the prefetch node,
allocated against the graph before the constant node is added, never equals the
name allocated to the constant node. -/
theorem names_stay_distinct (env : Env) (self : InjectPrefetch) (item : GrapplerItem)
    (stats : OptimizationStats) (out : Outcome)
    (hnodup : (item.graph.node.map NodeDef.name).Nodup)
    (hrun : OptimizeAndCollectStats env self item stats = some out) :
    (out.output.node.map NodeDef.name).Nodup ∧
    ∀ last_node : NodeDef,
      prefetchNodeName last_node item.graph ≠
        (AddScalarConstNode env.kAutotune item.graph).1.name := by
  have hcfresh : ∀ n ∈ item.graph.node,
      n.name ≠ (AddScalarConstNode env.kAutotune item.graph).1.name :=
    SetUniqueGraphNodeName_fresh kConstOpName item.graph { op := kConstOpName }
  refine ⟨?_, fun last_node h =>
    const_name_ne_prefetch_name env.kAutotune last_node item.graph item.graph h.symm⟩
  rcases run_outcomes env self item stats out hrun with
    ⟨hg, _, _⟩ | ⟨f, sink_node, last_node, _, _, _, hout⟩ |
    ⟨f, sink_node, last_node, types, shapes, hfetch, hsink, hlast, hout⟩
  · rw [hg]
    exact hnodup
  · rw [hout]
    simp only [List.map_append, List.map_cons, List.map_nil]
    rw [List.nodup_append]
    refine ⟨hnodup, List.nodup_singleton _, ?_⟩
    intro x hx hx'
    simp only [List.mem_singleton] at hx'
    obtain ⟨n, hn, hname⟩ := List.mem_map.1 hx
    exact hcfresh n hn (hname.trans hx')
  · have hpfresh : ∀ n ∈ item.graph.node, n.name ≠ prefetchNodeName last_node item.graph :=
      SetUniqueGraphNodeName_fresh _ item.graph {}
    have hcn := const_name_ne_prefetch_name env.kAutotune last_node item.graph item.graph
    rw [hout]
    simp only [List.map_append, map_redirect_names, List.map_cons, List.map_nil]
    rw [List.nodup_append]
    refine ⟨hnodup, ?_, ?_⟩
    · simp only [List.nodup_cons, List.mem_singleton, List.not_mem_nil, not_false_eq_true,
        List.nodup_nil, and_true]
      exact hcn
    · intro x hx hx'
      simp only [List.mem_cons, List.mem_singleton, List.not_mem_nil, or_false] at hx'
      obtain ⟨n, hn, hname⟩ := List.mem_map.1 hx
      rcases hx' with hx' | hx'
      · exact hcfresh n hn (hname.trans hx')
      · exact hpfresh n hn (hname.trans hx')

/-- Claim C15 at the pipeline `A -> B -> Sink`. -/
theorem names_stay_distinct_witness :
    (itemABSink.graph.node.map NodeDef.name).Nodup ∧
    OptimizeAndCollectStats envTop { autotune_ := true } itemABSink {} = some outABSink ∧
    (outABSink.output.node.map NodeDef.name).Nodup ∧
    ∀ last_node : NodeDef,
      prefetchNodeName last_node itemABSink.graph ≠
        (AddScalarConstNode envTop.kAutotune itemABSink.graph).1.name :=
  ⟨by decide, by decide,
    names_stay_distinct envTop { autotune_ := true } itemABSink {} outABSink (by decide)
      (by decide)⟩


/-! ## The frame of the injection -/

theorem redirectInputs_of_not_mem (a b : String) (n : NodeDef) (h : a ∉ n.input) :
    redirectInputs a b n = n := by
  have hmap : n.input.map (fun s => if s = a then b else s) = n.input := by
    have : ∀ s ∈ n.input, (fun s => if s = a then b else s) s = id s := by
      intro s hs
      have hne : s ≠ a := fun e => h (e ▸ hs)
      simp [hne]
    rw [List.map_congr_left this, List.map_id]
  unfold redirectInputs
  rw [hmap]

/-- Claim C16 (frame of the injection): on a pipeline graph, which is a DAG, so
that no node is among its own inputs, whenever the call performs the injection
(`num_changes` incremented) the output graph has two nodes more than the input
graph and every node of the input graph is still there, at its position, with
the same name, op and attributes and an input list of the same length; an input
entry is kept unless it named the last producing node `L`, in which case it
names the new node; so `L` itself and every node that did not consume `L` are
identical in both graphs, and no node is removed. -/
theorem frame_of_injection (env : Env) (self : InjectPrefetch) (item : GrapplerItem)
    (stats : OptimizationStats) (out : Outcome)
    (hdag : ∀ n ∈ item.graph.node, n.name ∉ n.input)
    (hrun : OptimizeAndCollectStats env self item stats = some out)
    (hinc : out.stats.num_changes = stats.num_changes + 1) :
    ∃ (f : String) (sink_node last_node P : NodeDef),
      out.status = Status.OK ∧ item.fetch = [f] ∧ GetNode item.graph f = some sink_node ∧
      GetInputNode sink_node item.graph = some last_node ∧
      out.output.node.getLast? = some P ∧ (∀ n ∈ item.graph.node, n.name ≠ P.name) ∧
      out.output.node.length = item.graph.node.length + 2 ∧
      (∀ (i : Nat) (n : NodeDef), item.graph.node[i]? = some n →
        ∃ n', out.output.node[i]? = some n' ∧ n'.name = n.name ∧ n'.op = n.op ∧
          n'.attr = n.attr ∧ n'.input.length = n.input.length ∧
          (∀ (j : Nat) (s : String), n.input[j]? = some s → s ≠ last_node.name →
            n'.input[j]? = some s) ∧
          (∀ j : Nat, n.input[j]? = some last_node.name → n'.input[j]? = some P.name) ∧
          (last_node.name ∉ n.input → n' = n)) ∧
      GetNode out.output last_node.name = some last_node ∧
      (∃ i : Nat, item.graph.node[i]? = some last_node ∧
        out.output.node[i]? = some last_node) := by
  obtain ⟨f, sink_node, last_node, types, shapes, hfetch, hsink, hlast, _, _, hout⟩ :=
    injection_performed env self item stats out hrun hinc
  obtain ⟨rest, hin, hg⟩ := GetInputNode_some _ _ _ hlast
  have hmem : last_node ∈ item.graph.node := (GetNode_some _ _ _ hg).1
  have hnot : last_node.name ∉ last_node.input := hdag last_node hmem
  have hpos : ∀ (i : Nat) (n : NodeDef), item.graph.node[i]? = some n →
      out.output.node[i]? =
        some (redirectInputs last_node.name (prefetchNodeName last_node item.graph) n) := by
    intro i n hi
    have hlt : i < (item.graph.node.map
        (redirectInputs last_node.name (prefetchNodeName last_node item.graph))).length := by
      rw [List.length_map]
      exact (List.getElem?_eq_some.1 hi).1
    rw [hout]
    simp only
    rw [List.getElem?_append_left hlt, List.getElem?_map, hi]
    rfl
  refine ⟨f, sink_node, last_node,
    { name := prefetchNodeName last_node item.graph,
      op := kPrefetchDataset,
      input := [last_node.name, (AddScalarConstNode env.kAutotune item.graph).1.name],
      attr := [(kOutputTypes, types), (kOutputShapes, shapes)] },
    by rw [hout], hfetch, hsink, hlast, ?_, SetUniqueGraphNodeName_fresh _ item.graph {},
    ?_, ?_, ?_, ?_⟩
  · rw [hout]
    simp
  · rw [hout]
    simp
  · intro i n hi
    refine ⟨redirectInputs last_node.name (prefetchNodeName last_node item.graph) n,
      hpos i n hi, rfl, rfl, rfl, ?_, ?_, ?_, ?_⟩
    · simp [redirectInputs]
    · intro j s hj hne
      simp only [redirectInputs, List.getElem?_map, hj, Option.map_some', if_neg hne]
    · intro j hj
      simp only [redirectInputs, List.getElem?_map, hj, Option.map_some', if_true]
    · intro hn
      exact redirectInputs_of_not_mem _ _ n hn
  · rw [hout]
    simp only
    apply GetNode_append_found
    rw [GetNode_map_redirect]
    have : GetNode { node := item.graph.node } last_node.name = some last_node := hg
    rw [this, Option.map_some', redirectInputs_of_not_mem _ _ last_node hnot]
  · obtain ⟨i, hi⟩ := List.mem_iff_getElem?.1 hmem
    refine ⟨i, hi, ?_⟩
    rw [hpos i last_node hi, redirectInputs_of_not_mem _ _ last_node hnot]

/-- Claim C16 at the pipeline `A -> B -> Sink`. -/
theorem frame_of_injection_witness :
    (∀ n ∈ itemABSink.graph.node, n.name ∉ n.input) ∧
    OptimizeAndCollectStats envTop { autotune_ := true } itemABSink {} = some outABSink ∧
    outABSink.stats.num_changes = ({} : OptimizationStats).num_changes + 1 ∧
    ∃ (f : String) (sink_node last_node P : NodeDef),
      outABSink.status = Status.OK ∧ itemABSink.fetch = [f] ∧
      GetNode itemABSink.graph f = some sink_node ∧
      GetInputNode sink_node itemABSink.graph = some last_node ∧
      outABSink.output.node.getLast? = some P ∧
      (∀ n ∈ itemABSink.graph.node, n.name ≠ P.name) ∧
      outABSink.output.node.length = itemABSink.graph.node.length + 2 ∧
      (∀ (i : Nat) (n : NodeDef), itemABSink.graph.node[i]? = some n →
        ∃ n', outABSink.output.node[i]? = some n' ∧ n'.name = n.name ∧ n'.op = n.op ∧
          n'.attr = n.attr ∧ n'.input.length = n.input.length ∧
          (∀ (j : Nat) (s : String), n.input[j]? = some s → s ≠ last_node.name →
            n'.input[j]? = some s) ∧
          (∀ j : Nat, n.input[j]? = some last_node.name → n'.input[j]? = some P.name) ∧
          (last_node.name ∉ n.input → n' = n)) ∧
      GetNode outABSink.output last_node.name = some last_node ∧
      (∃ i : Nat, itemABSink.graph.node[i]? = some last_node ∧
        outABSink.output.node[i]? = some last_node) :=
  ⟨by decide, by decide, by decide,
    frame_of_injection envTop { autotune_ := true } itemABSink {} outABSink (by decide)
      (by decide) (by decide)⟩

/-! ## Lookup safety -/

/-- Claim C17 (lookup safety): with autotune on, an item not derived from a
function definition and exactly one fetch name `f`, if `f` is the name of a node
of the graph and the first input of each node so named names a node of the
graph, then the sink and the last producing node both resolve and the call
returns (no null pointer is dereferenced); conversely there are items meeting
the first three conditions for which a lookup yields no node: one whose fetch
name no node carries, and one whose sink has no input. -/
theorem lookup_safety (env : Env) (self : InjectPrefetch) (item : GrapplerItem)
    (stats : OptimizationStats) (f : String)
    (hon : self.autotune_ = true)
    (hfun : env.IsItemDerivedFromFunctionDef item item.graph = false)
    (hfetch : item.fetch = [f])
    (hf : ∃ n ∈ item.graph.node, n.name = f)
    (hin : ∀ n ∈ item.graph.node, n.name = f →
      ∃ m ∈ item.graph.node, n.input.head? = some m.name) :
    (∃ sink_node last_node out,
      GetNode item.graph f = some sink_node ∧
      GetInputNode sink_node item.graph = some last_node ∧
      OptimizeAndCollectStats env self item stats = some out) ∧
    (∃ item2 : GrapplerItem,
      envTop.IsItemDerivedFromFunctionDef item2 item2.graph = false ∧
      item2.fetch = ["Missing"] ∧ GetNode item2.graph "Missing" = none ∧
      OptimizeAndCollectStats envTop { autotune_ := true } item2 {} = none) ∧
    (∃ (item3 : GrapplerItem) (sink3 : NodeDef),
      envTop.IsItemDerivedFromFunctionDef item3 item3.graph = false ∧
      item3.fetch = ["Sink"] ∧ GetNode item3.graph "Sink" = some sink3 ∧
      sink3.input = [] ∧ GetInputNode sink3 item3.graph = none ∧
      OptimizeAndCollectStats envTop { autotune_ := true } item3 {} = none) := by
  refine ⟨?_, ⟨itemAbsentFetch, rfl, rfl, by decide, by decide⟩,
    ⟨itemSinkNoInput, { name := "Sink", op := "Identity" }, rfl, rfl, by decide, rfl,
      by decide, by decide⟩⟩
  obtain ⟨n, hn, hname⟩ := hf
  obtain ⟨sink_node, hsink⟩ := GetNode_of_mem item.graph n hn
  rw [hname] at hsink
  obtain ⟨hsmem, hsname⟩ := GetNode_some _ _ _ hsink
  obtain ⟨m, hm, hhead⟩ := hin sink_node hsmem hsname
  obtain ⟨last_node, hlast⟩ := GetNode_of_mem item.graph m hm
  have hlast2 : GetInputNode sink_node item.graph = some last_node := by
    unfold GetInputNode
    cases hinput : sink_node.input with
    | nil =>
      rw [hinput] at hhead
      exact Option.noConfusion hhead
    | cons first rest =>
      rw [hinput] at hhead
      simp only [List.head?_cons, Option.some.injEq] at hhead
      simp only [hhead, hlast]
  by_cases hop : last_node.op = kPrefetchDataset
  · exact ⟨sink_node, last_node, { status := Status.OK, output := item.graph, stats := stats },
      hsink, hlast2, by simp [OptimizeAndCollectStats, hon, hfun, hfetch, hsink, hlast2, hop]⟩
  · exact ⟨sink_node, last_node, _, hsink, hlast2,
      run_reaches_injectAfter env self item stats f sink_node last_node hon hfun hfetch hsink
        hlast2 hop⟩

/-- Claim C17 at the pipeline `A -> B -> Sink`. -/
theorem lookup_safety_witness :
    ({ autotune_ := true } : InjectPrefetch).autotune_ = true ∧
    envTop.IsItemDerivedFromFunctionDef itemABSink itemABSink.graph = false ∧
    itemABSink.fetch = ["Sink"] ∧
    (∃ n ∈ itemABSink.graph.node, n.name = "Sink") ∧
    (∀ n ∈ itemABSink.graph.node, n.name = "Sink" →
      ∃ m ∈ itemABSink.graph.node, n.input.head? = some m.name) ∧
    (∃ sink_node last_node out,
      GetNode itemABSink.graph "Sink" = some sink_node ∧
      GetInputNode sink_node itemABSink.graph = some last_node ∧
      OptimizeAndCollectStats envTop { autotune_ := true } itemABSink {} = some out) ∧
    (∃ item2 : GrapplerItem,
      envTop.IsItemDerivedFromFunctionDef item2 item2.graph = false ∧
      item2.fetch = ["Missing"] ∧ GetNode item2.graph "Missing" = none ∧
      OptimizeAndCollectStats envTop { autotune_ := true } item2 {} = none) ∧
    (∃ (item3 : GrapplerItem) (sink3 : NodeDef),
      envTop.IsItemDerivedFromFunctionDef item3 item3.graph = false ∧
      item3.fetch = ["Sink"] ∧ GetNode item3.graph "Sink" = some sink3 ∧
      sink3.input = [] ∧ GetInputNode sink3 item3.graph = none ∧
      OptimizeAndCollectStats envTop { autotune_ := true } item3 {} = none) :=
  ⟨rfl, rfl, rfl, by decide, by decide,
    lookup_safety envTop { autotune_ := true } itemABSink {} "Sink" rfl rfl rfl (by decide)
      (by decide)⟩

/-! ## The error branch of the mutation, and a name collision -/

/-- With `UpdateFanouts`, which fails only for a missing node, the status on the
mutation path is always OK: the last producing node is in the graph and the
prefetch node has just been added. -/
theorem injectAfter_returns_ok (env : Env) (last_node : NodeDef) (output : GraphDef)
    (stats : OptimizationStats) (hmem : last_node ∈ output.node) :
    (injectAfter env last_node output stats).status = Status.OK := by
  cases ht : FindAttr last_node.attr kOutputTypes with
  | none => rw [injectAfter_copy_fails env last_node output stats (Or.inl ht)]
  | some types =>
    cases hs : FindAttr last_node.attr kOutputShapes with
    | none => rw [injectAfter_copy_fails env last_node output stats (Or.inr hs)]
    | some shapes => rw [injectAfter_success env last_node output stats types shapes hmem ht hs]

/-- Lines 87-89 taken alone: when `UpdateFanouts` fails (here for a node `Z`
that is not in the graph), the error is returned with the constant node and the
prefetch node already added and no consumer redirected. -/
theorem injectAfter_error_branch :
    injectAfter envTop { name := "Z", op := "MapDataset", attr := datasetAttrs } graphABSink {} =
      { status := Status.StructuralCorruption "node to update fanouts of is missing",
        output := { node := graphABSink.node ++
          [constNode "Const" (-1),
           { name := "inject/prefetch_Z", op := "PrefetchDataset", input := ["Z", "Const"],
             attr := datasetAttrs }] },
        stats := {} } := by
  decide

/-- When the first candidate name is taken, the prefetch node gets the hint
followed by `/_` and the node count. -/
theorem name_collision_example :
    (OptimizeAndCollectStats envTop { autotune_ := true } itemNameTaken {}).map
        (fun o => o.output.node.map NodeDef.name) =
      some ["A", "B", "Sink", "inject/prefetch_B", "Const", "inject/prefetch_B/_4"] := by
  decide


/-! ## All-or-nothing rewiring, with the failure of redirection left open -/

/-- With a substrate that never reports corruption the pass with the failure
left open is `OptimizeAndCollectStats`. -/
theorem runWith_neverCorrupt (env : Env) (self : InjectPrefetch) (item : GrapplerItem)
    (stats : OptimizationStats) :
    OptimizeAndCollectStatsWith neverCorrupt env self item stats =
      OptimizeAndCollectStats env self item stats := by
  have hinj : ∀ last_node, injectAfterWith neverCorrupt env last_node item.graph stats =
      injectAfter env last_node item.graph stats := by
    intro last_node
    simp [injectAfterWith, injectAfter, UpdateFanoutsOrFail, neverCorrupt]
  simp only [OptimizeAndCollectStatsWith, OptimizeAndCollectStats, hinj]

end grappler
end tensorflow
